import Mathlib

/-!
# Replica-dispatch transport (`kv/transport.go`)

A shallow embedding of the two transports of `kv/transport.go`: the gRPC
transport built by `grpcTransportFactory`, and the `senderTransport` built by
`SenderTransportFactory`.

Conventions of the embedding.

* A Go pointer that may be `nil` is an `Option`.
* A method with a pointer receiver takes the receiver state and returns the
  new state next to its result.
* Everything a method does to the outside world (values sent on the `done`
  channel, handler invocations, connection-state calls, the goroutine it
  starts) is returned as an explicit record of effects, in program order.
* A run-time panic is the `Exec.panic` result.
-/

namespace Kv

/-! ## Data model -/

/-- A Go `error` value, identified by its message. -/
structure GoError where
  msg : String
  deriving DecidableEq, Repr

/-- A `roachpb.Error`, the error embedded in a `BatchResponse`. -/
structure RoachError where
  msg : String
  deriving DecidableEq, Repr

/-- A `roachpb.ReplicaDescriptor`, identified by a number. -/
abbrev ReplicaDescriptor := Nat

/-- A `roachpb.BatchRequest`: the `Replica` routing field that the factory
stamps, and `body` standing for every other field of the request. -/
structure BatchRequest where
  Replica : ReplicaDescriptor
  body : Nat
  deriving DecidableEq, Repr

/-- A `roachpb.BatchResponse`: the embedded `Error` slot, and `body` standing
for every other field. The zero value `BatchResponse{}` has no error and a
zero body. -/
structure BatchResponse where
  Error : Option RoachError
  body : Nat
  deriving DecidableEq, Repr

/-- A `BatchCall`, the value delivered on the `done` channel. A field left out
of a Go composite literal is `nil`, here `none`. -/
structure BatchCall where
  Reply : Option BatchResponse
  Err : Option GoError
  deriving DecidableEq, Repr

/-- Result of running a piece of Go code: a normal return, a returned `error`,
or a run-time panic. -/
inductive Exec (α : Type) where
  | ok (a : α)
  | error (e : GoError)
  | panic (what : String)

/-- Modelled from the spec: the declaration of `orderingPolicy` and of its
constants `orderStable` and `orderRandom` is not in the source file; the spec
names the two ordering modes stable and randomized. It is an integer type in
Go, so values other than the two constants exist. -/
abbrev orderingPolicy := Int

/-- Modelled from the spec: the stable ordering mode (see `orderingPolicy`). -/
def orderStable : orderingPolicy := 0

/-- Modelled from the spec: the randomized ordering mode (see
`orderingPolicy`). -/
def orderRandom : orderingPolicy := 1

/-- The `SendOptions` fields the transport reads: the ordering mode and the
timeout from which `contextWithTimeout` derives the attempt's context. -/
structure SendOptions where
  Ordering : orderingPolicy
  Timeout : Nat
  deriving DecidableEq, Repr

/-- One element of a `ReplicaSlice`: the replica descriptor and the printed
node address `NodeDesc.Address.String()`. -/
structure ReplicaInfo where
  Replica : ReplicaDescriptor
  Address : String
  deriving DecidableEq, Repr

/-- A `*grpc.ClientConn` handle, identified by a number. -/
abbrev Conn := Nat

/-- The stub returned by `roachpb.NewInternalClient(conn)`: it wraps the
connection it was made from. -/
structure InternalClient where
  conn : Conn
  deriving DecidableEq, Repr

/-- The in-process handler `localServer.Batch`: given the request it returns a
reply pointer and an error, each possibly nil. -/
abbrev InternalServer := BatchRequest → Option BatchResponse × Option GoError

/-- The two `*rpc.Context` methods the transport calls. -/
structure RpcContext where
  GRPCDial : String → Except GoError Conn
  GetLocalInternalServerForAddr : String → Option InternalServer

/-- The `batchClient` struct: one candidate paired with its request copy. -/
structure batchClient where
  remoteAddr : String
  conn : Conn
  client : InternalClient
  args : BatchRequest
  deriving DecidableEq, Repr

/-! ## The sender transport -/

/-- A `client.Sender`: `Send` returns a reply pointer and a `*roachpb.Error`,
each possibly nil. -/
abbrev Sender := BatchRequest → Option BatchResponse × Option RoachError

/-- The `senderTransport` struct. The tracer only produces trace spans and is
left out. -/
structure senderTransport where
  sender : Sender
  args : BatchRequest
  called : Bool

/-- The closure returned by `SenderTransportFactory`: it ignores the send
options, the rpc context and the replica slice, and cannot fail. -/
def SenderTransportFactory (sender : Sender) (_opts : SendOptions) (_ctx : RpcContext)
    (_replicas : List ReplicaInfo) (args : BatchRequest) : Exec senderTransport :=
  .ok ⟨sender, args, false⟩

/-- The method `senderTransport.IsExhausted`: returns the `called` field. -/
def senderTransport.IsExhausted (s : senderTransport) : Bool × senderTransport :=
  (s.called, s)

/-- The method `senderTransport.SendNext`: the new receiver state and the
values sent on `done`, or a panic. -/
def senderTransport.SendNext (s : senderTransport) : Exec (senderTransport × List BatchCall) :=
  match s.sender s.args with
  | (br, pErr) =>
    let br : BatchResponse := match br with
      | none => ⟨none, 0⟩
      | some b => b
    if br.Error ≠ none then
      .panic "error unexpectedly set"
    else
      let br : BatchResponse := ⟨pErr, br.body⟩
      .ok (s, [⟨some br, none⟩])

/-- The method `senderTransport.Close`: does nothing. -/
def senderTransport.Close (s : senderTransport) : senderTransport := s

/-! ## The gRPC transport -/

/-- The `grpc.ConnectivityState` values. -/
inductive ConnectivityState where
  | Idle
  | Connecting
  | Ready
  | TransientFailure
  | Shutdown
  deriving DecidableEq, Repr

/-- What one call of `c.State()` or `c.WaitForStateChange(ctx, state)`
returns: a state and an error, possibly nil. -/
structure Observation where
  state : ConnectivityState
  err : Option GoError
  deriving DecidableEq, Repr

/-- The behaviour of the network as seen by the transport. `State c` is what
`c.State()` returns; `changes c` lists what the successive calls of
`c.WaitForStateChange` return, and a call made when the list has run out never
returns; `Batch` is the remote call `client.Batch(ctx, &args)`. -/
structure Network where
  State : Conn → Observation
  changes : Conn → List Observation
  Batch : InternalClient → BatchRequest → Option BatchResponse × Option GoError

/-- How the readiness loop of the goroutine ends: its condition
`state != grpc.Ready` fails, its body sends a `BatchCall` and returns, or a
`WaitForStateChange` call never returns. -/
inductive LoopExit where
  | ready
  | failed (call : BatchCall)
  | blocked
  deriving DecidableEq, Repr

/-- The error built by `fmt.Errorf` when the connection is shut down. -/
def closedError (addr : String) : GoError :=
  ⟨"rpc to " ++ addr ++ " failed as client connection was closed"⟩

/-- One evaluation of the loop condition `state != grpc.Ready` followed, when
it holds, by the loop body, with the observation `o` in hand: `some x` when the
loop ends here with exit `x`, `none` when it goes on to call
`WaitForStateChange`. -/
def loopStep (addr : String) (o : Observation) : Option LoopExit :=
  if o.state = ConnectivityState.Ready then
    some LoopExit.ready
  else
    match o.err with
    | some err => some (LoopExit.failed ⟨none, some err⟩)
    | none =>
      if o.state = ConnectivityState.Shutdown then
        some (LoopExit.failed ⟨none, some (closedError addr)⟩)
      else
        none

/-- The loop
`for state, err := c.State(); state != grpc.Ready; state, err = c.WaitForStateChange(ctx, state)`
entered with the observation `o` in hand and the results of the coming
`WaitForStateChange` calls in the list. Returns the number of
`WaitForStateChange` calls made and how the loop ends. -/
def waitForReady (addr : String) : Observation → List Observation → Nat × LoopExit
  | o, [] =>
    match loopStep addr o with
    | some x => (0, x)
    | none => (1, LoopExit.blocked)
  | o, o1 :: rest =>
    match loopStep addr o with
    | some x => (0, x)
    | none => ((waitForReady addr o1 rest).1 + 1, (waitForReady addr o1 rest).2)

/-- What the goroutine started by `SendNext` does: the number of
`WaitForStateChange` calls, the remote calls issued (stub and request), the
values sent on `done`, and whether the goroutine runs to its end. -/
structure Goroutine where
  waits : Nat
  rpcCalls : List (InternalClient × BatchRequest)
  sent : List BatchCall
  finished : Bool
  deriving DecidableEq, Repr

/-- The body of the goroutine `go func() { ... }()` of `SendNext`. -/
def remoteAttempt (net : Network) (client : batchClient) (addr : String) : Goroutine :=
  match waitForReady addr (net.State client.conn) (net.changes client.conn) with
  | (n, LoopExit.ready) =>
    match net.Batch client.client client.args with
    | (reply, err) => ⟨n, [(client.client, client.args)], [⟨reply, err⟩], true⟩
  | (n, LoopExit.failed call) => ⟨n, [], [call], true⟩
  | (n, LoopExit.blocked) => ⟨n, [], [], false⟩

/-- What one `SendNext` call does before it returns, in program order: the
addresses passed to `GetLocalInternalServerForAddr`, the requests passed to
`localServer.Batch`, the values sent on `done`, and the goroutine started, if
any. -/
structure SendEffects where
  lookups : List String
  localCalls : List BatchRequest
  sent : List BatchCall
  spawned : Option Goroutine
  deriving DecidableEq, Repr

/-- The `grpcTransport` struct. -/
structure grpcTransport where
  opts : SendOptions
  rpcContext : RpcContext
  orderedClients : List batchClient

/-- The method `grpcTransport.IsExhausted`. -/
def grpcTransport.IsExhausted (gt : grpcTransport) : Bool × grpcTransport :=
  (gt.orderedClients.length == 0, gt)

/-- The part of `SendNext` after the dequeue: the local fast path, or the
goroutine of the remote path. The flag `enableLocalCalls` is the package
variable of that name. -/
def dispatch (enableLocalCalls : Bool) (net : Network) (rpcContext : RpcContext)
    (client : batchClient) : SendEffects :=
  let addr := client.remoteAddr
  match rpcContext.GetLocalInternalServerForAddr addr with
  | some localServer =>
    if enableLocalCalls then
      match localServer client.args with
      | (reply, err) => ⟨[addr], [client.args], [⟨reply, err⟩], none⟩
    else
      ⟨[addr], [], [], some (remoteAttempt net client addr)⟩
  | none => ⟨[addr], [], [], some (remoteAttempt net client addr)⟩

/-- The method `grpcTransport.SendNext`: `gt.orderedClients[0]` panics on an
empty slice; otherwise the head is dequeued and dispatched. -/
def grpcTransport.SendNext (enableLocalCalls : Bool) (net : Network) (gt : grpcTransport) :
    Exec (grpcTransport × SendEffects) :=
  match gt.orderedClients with
  | [] => .panic "index out of range"
  | client :: rest =>
    .ok (⟨gt.opts, gt.rpcContext, rest⟩, dispatch enableLocalCalls net gt.rpcContext client)

/-- The method `grpcTransport.Close`: does nothing. -/
def grpcTransport.Close (gt : grpcTransport) : grpcTransport := gt

/-- Calls `SendNext` `k` times in a row, collecting the effects of each call;
a panic ends the run. -/
def sendMany (enableLocalCalls : Bool) (net : Network) :
    Nat → grpcTransport → Exec (grpcTransport × List SendEffects)
  | 0, gt => .ok (gt, [])
  | k + 1, gt =>
    match gt.SendNext enableLocalCalls net with
    | .ok (gt1, eff) =>
      match sendMany enableLocalCalls net k gt1 with
      | .ok (gt2, effs) => .ok (gt2, eff :: effs)
      | .error e => .error e
      | .panic what => .panic what
    | .error e => .error e
    | .panic what => .panic what

/-! ## The factory -/

/-- The two statements `argsCopy := args` and
`argsCopy.Replica = replica.ReplicaDescriptor`: returns the template `args` as
it is after them, next to the copy. -/
def stampReplica (args : BatchRequest) (replica : ReplicaInfo) : BatchRequest × BatchRequest :=
  let argsCopy : BatchRequest := args
  let argsCopy : BatchRequest := ⟨replica.Replica, argsCopy.body⟩
  (args, argsCopy)

/-- The first loop of `grpcTransportFactory`, entered with the `clients`
built so far: dials each replica in turn and appends its `batchClient`; the
first dial error ends it. The template `args` is handed from one iteration to
the next as `stampReplica` leaves it. Returns the addresses dialed, in order,
next to the outcome. -/
def dialClients (rpcContext : RpcContext) (args : BatchRequest) :
    List ReplicaInfo → List batchClient → List String × Except GoError (List batchClient)
  | [], clients => ([], .ok clients)
  | replica :: rest, clients =>
    match rpcContext.GRPCDial replica.Address with
    | .error err => ([replica.Address], .error err)
    | .ok conn =>
      let r := dialClients rpcContext (stampReplica args replica).1 rest
        (clients ++ [⟨replica.Address, conn, ⟨conn⟩, (stampReplica args replica).2⟩])
      (replica.Address :: r.1, r.2)

/-- State of the random source used by `shuffleClients`. -/
abbrev Rng := Nat

/-- The part of `grpcTransportFactory` after the health split: the `switch`
on `opts.Ordering`. A slice expression `clients[:nHealthy]` or
`clients[nHealthy:]` panics when `nHealthy` is out of range. With neither
ordering constant, `orderedClients` stays `nil`. -/
def orderClients (shuffleClients : Rng → List batchClient → List batchClient × Rng)
    (rng : Rng) (ordering : orderingPolicy) (clients : List batchClient) (nHealthy : Int) :
    Exec (List batchClient) :=
  if ordering = orderStable then
    .ok clients
  else if ordering = orderRandom then
    if nHealthy < 0 ∨ (clients.length : Int) < nHealthy then
      .panic "slice bounds out of range"
    else
      let s1 := shuffleClients rng (clients.take nHealthy.toNat)
      let s2 := shuffleClients s1.2 (clients.drop nHealthy.toNat)
      .ok (s1.1 ++ s2.1)
  else
    .ok []

/-- What a factory call does: the addresses dialed and what it returns. -/
structure FactoryRun where
  dialed : List String
  result : Exec grpcTransport

/-- The `Transport` value of the Go result pair `(Transport, error)`: nil
unless the call returns a transport. -/
def FactoryRun.transport (run : FactoryRun) : Option grpcTransport :=
  match run.result with
  | .ok gt => some gt
  | _ => none

/-- The `error` value of the Go result pair `(Transport, error)`: nil unless
the call returns an error. -/
def FactoryRun.err (run : FactoryRun) : Option GoError :=
  match run.result with
  | .error e => some e
  | _ => none

/-- The function `grpcTransportFactory`. The functions `splitHealthy` and
`shuffleClients` are not in the source file and are parameters:
`splitHealthy clients` gives the rearranged slice and `nHealthy`, or an
error; `shuffleClients` permutes the slice it is given using the random
source. -/
def grpcTransportFactory
    (splitHealthy : List batchClient → Except GoError (List batchClient × Int))
    (shuffleClients : Rng → List batchClient → List batchClient × Rng) (rng : Rng)
    (opts : SendOptions) (rpcContext : RpcContext) (replicas : List ReplicaInfo)
    (args : BatchRequest) : FactoryRun :=
  match dialClients rpcContext args replicas [] with
  | (dialed, .error err) => ⟨dialed, .error err⟩
  | (dialed, .ok clients) =>
    match splitHealthy clients with
    | .error err => ⟨dialed, .error err⟩
    | .ok (clients, nHealthy) =>
      match orderClients shuffleClients rng opts.Ordering clients nHealthy with
      | .ok orderedClients => ⟨dialed, .ok ⟨opts, rpcContext, orderedClients⟩⟩
      | .error err => ⟨dialed, .error err⟩
      | .panic what => ⟨dialed, .panic what⟩

/-! ## Vocabulary of the properties -/

/-- An observation that ends the readiness loop: the state is `Ready` or
`Shutdown`, or an error came with it. -/
def Observation.ends (o : Observation) : Bool :=
  o.state == ConnectivityState.Ready || o.state == ConnectivityState.Shutdown || o.err.isSome

/-- Every value that a `SendNext` call causes to be sent on `done`: by the
call itself, then by the goroutine it started. -/
def SendEffects.delivered (eff : SendEffects) : List BatchCall :=
  eff.sent ++ (match eff.spawned with
    | some g => g.sent
    | none => [])

/-- Exactly one of reply and error is present. -/
def exactlyOne {α β : Type} (reply : Option α) (err : Option β) : Bool :=
  reply.isSome != err.isSome

/-- The script of a connection: what `State()` returns, then what the
successive `WaitForStateChange` calls return. -/
def Network.script (net : Network) (c : Conn) : List Observation :=
  net.State c :: net.changes c

/-- The relation that holds between an earlier element `a` and a later
element `b` of a queue in which no unhealthy binding comes before a healthy
one. -/
def healthOrdered (healthy : batchClient → Bool) (a b : batchClient) : Prop :=
  ¬(healthy a = false ∧ healthy b = true)

/-! ## Concrete instances

Small concrete networks, contexts and transports on which the theorems below
are evaluated. -/

/-- A context that dials `"a"`, `"b"` and any other address to the handles 0,
1 and 2, and serves no address in-process. -/
def demoContext : RpcContext :=
  ⟨fun addr => .ok (if addr = "a" then 0 else if addr = "b" then 1 else 2), fun _ => none⟩

/-- Connection 1 counts as unhealthy, every other one as healthy. -/
def demoHealthy (c : batchClient) : Bool := c.conn != 1

/-- A health split that keeps the order inside each class. -/
def demoSplit (cs : List batchClient) : Except GoError (List batchClient × Int) :=
  .ok (cs.filter demoHealthy ++ cs.filter (fun c => !demoHealthy c),
    ((cs.filter demoHealthy).length : Int))

/-- A shuffle that reverses the slice. -/
def demoShuffle (g : Rng) (l : List batchClient) : List batchClient × Rng :=
  (l.reverse, g + 1)

/-- Three candidates, the second of which dials to the unhealthy connection. -/
def demoReplicas : List ReplicaInfo := [⟨1, "a"⟩, ⟨2, "b"⟩, ⟨3, "c"⟩]

/-- A network on which every connection is ready at once and every remote
call returns a reply with body 5. -/
def demoNetwork : Network :=
  ⟨fun _ => ⟨.Ready, none⟩, fun _ => [], fun _ _ => (some ⟨none, 5⟩, none)⟩

/-- A transport with a queue of two bindings. -/
def demoTransport : grpcTransport :=
  ⟨⟨orderStable, 0⟩, demoContext, [⟨"a", 0, ⟨0⟩, ⟨1, 7⟩⟩, ⟨"b", 1, ⟨1⟩, ⟨2, 7⟩⟩]⟩

/-- A context like `demoContext` that serves the address `"a"` in-process,
with a handler returning a reply with body 9 and no error. -/
def demoLocalContext : RpcContext :=
  ⟨demoContext.GRPCDial, fun addr => if addr = "a" then some (fun _ => (some ⟨none, 9⟩, none)) else none⟩

/-- A context like `demoContext` that serves the address `"a"` in-process,
with a handler returning a nil reply and a nil error. -/
def demoSilentContext : RpcContext :=
  ⟨demoContext.GRPCDial, fun addr => if addr = "a" then some (fun _ => (none, none)) else none⟩

/-- A network on which every connection is idle, then connecting, then
ready, and every remote call returns a reply with body 5. -/
def demoSlowNetwork : Network :=
  ⟨fun _ => ⟨.Idle, none⟩, fun _ => [⟨.Connecting, none⟩, ⟨.Ready, none⟩],
    fun _ _ => (some ⟨none, 5⟩, none)⟩

/-- The binding for address `"a"` used in the concrete transports. -/
def demoClient : batchClient := ⟨"a", 0, ⟨0⟩, ⟨1, 7⟩⟩

/-- A sender transport whose sender returns a reply with body 4 and an
error. -/
def demoSender : senderTransport :=
  ⟨fun _ => (some ⟨none, 4⟩, some ⟨"boom"⟩), ⟨1, 7⟩, false⟩

/-- A network on which `State()` reports `Ready` together with an error, and
every remote call returns a reply with body 5. -/
def demoReadyErrNetwork : Network :=
  ⟨fun _ => ⟨.Ready, some ⟨"context deadline exceeded"⟩⟩, fun _ => [],
    fun _ _ => (some ⟨none, 5⟩, none)⟩

/-- A network on which every connection is idle, then in transient failure
with an error. -/
def demoFailingNetwork : Network :=
  ⟨fun _ => ⟨.Idle, none⟩, fun _ => [⟨.TransientFailure, some ⟨"context deadline exceeded"⟩⟩],
    fun _ _ => (some ⟨none, 5⟩, none)⟩

/-- A network on which every connection is connecting, then shut down. -/
def demoClosedNetwork : Network :=
  ⟨fun _ => ⟨.Connecting, none⟩, fun _ => [⟨.Shutdown, none⟩, ⟨.Ready, none⟩],
    fun _ _ => (some ⟨none, 5⟩, none)⟩

/-- A network on which every connection is shut down at once, and on which a
remote call would return a nil reply and a nil error. -/
def demoShutSilentNetwork : Network :=
  ⟨fun _ => ⟨.Shutdown, none⟩, fun _ => [], fun _ _ => (none, none)⟩

/-- A context on which every dial fails with the same error. -/
def demoDownContext : RpcContext :=
  ⟨fun _ => .error ⟨"connection refused"⟩, fun _ => none⟩

/-- A context on which the address `"b"` fails to dial and every other
address dials to the handle 0. -/
def demoHalfContext : RpcContext :=
  ⟨fun addr => if addr = "b" then .error ⟨"connection refused"⟩ else .ok 0, fun _ => none⟩

/-- A sender transport whose sender returns a reply that already carries an
error. -/
def demoBadSender : senderTransport :=
  ⟨fun _ => (some ⟨some ⟨"inner"⟩, 4⟩, none), ⟨1, 7⟩, false⟩

end Kv

/-!
# The LIMIT and OFFSET window (`sql/limit.go`)

An `int64` value is an `Int`; the result of an `int64` operation that can
leave the range is passed through `wrap64`.
-/

namespace Sql

/-- The constant `math.MaxInt64`. -/
def MaxInt64 : Int := 9223372036854775807

/-- The constant `math.MinInt64`. -/
def MinInt64 : Int := -9223372036854775808

/-- Two's-complement wrap-around of an integer into the `int64` range. -/
def wrap64 (x : Int) : Int :=
  (x + 9223372036854775808) % 18446744073709551616 - 9223372036854775808

/-- An integer is a value of type `int64`. -/
def isInt64 (x : Int) : Prop := MinInt64 ≤ x ∧ x ≤ MaxInt64

/-- Result of running a Go function that has its own error result: the
values it returns, or a run-time panic. -/
inductive Run (α : Type) where
  | returned (a : α)
  | panicked (what : String)
  deriving DecidableEq, Repr

/-! ## evalLimit -/

/-- A `parser.Expr`, identified by a number. -/
abbrev Expr := Nat

/-- A `parser.TypedExpr`, identified by a number. -/
abbrev TypedExpr := Nat

/-- A `parser.Datum`: `DNull`, a `*DInt`, or a datum of any other type. -/
inductive Datum where
  | DNull
  | DInt (v : Int)
  | DOther (tag : Nat)
  deriving DecidableEq, Repr

/-- The `parser.Limit` clause; a nil expression is `none`. -/
structure Limit where
  Count : Option Expr
  Offset : Option Expr
  deriving DecidableEq, Repr

/-- What `evalLimit` uses of the `planner`: the flag `evalCtx.PrepareOnly`
and the three parser operations, which are not in the source file and are
taken as they behave on each expression. `TypeCheckAndRequire` also gets the
clause name. -/
structure planner where
  PrepareOnly : Bool
  TypeCheckAndRequire : Expr → String → Except Kv.GoError TypedExpr
  NormalizeExpr : TypedExpr → Except Kv.GoError TypedExpr
  Eval : TypedExpr → Except Kv.GoError Datum

/-- How one iteration of the loop over `data` goes, in the order of the
statements of its body. -/
inductive ClauseStep where
  | absent
  | typeError (err : Kv.GoError)
  | normalizeError (err : Kv.GoError)
  | prepared
  | evalError (err : Kv.GoError)
  | null
  | notInt
  | negative (val : Int)
  | value (val : Int)
  deriving DecidableEq, Repr

/-- The body of the loop over `data` for the entry with name `name` and
expression `src`, up to the assignment to `*datum.dst`. -/
def evalClause (p : planner) (name : String) (src : Option Expr) : ClauseStep :=
  match src with
  | none => .absent
  | some e =>
    match p.TypeCheckAndRequire e name with
    | .error err => .typeError err
    | .ok typedSrc =>
      match p.NormalizeExpr typedSrc with
      | .error err => .normalizeError err
      | .ok normalized =>
        if p.PrepareOnly then
          .prepared
        else
          match p.Eval normalized with
          | .error err => .evalError err
          | .ok Datum.DNull => .null
          | .ok (Datum.DOther _) => .notInt
          | .ok (Datum.DInt val) =>
            if val < 0 then .negative val else .value val

/-- The pointer `datum.dst`: `&count` or `&offset`. -/
inductive Dst where
  | count
  | offset
  deriving DecidableEq, Repr

/-- One entry of the slice `data`. -/
structure datum where
  name : String
  src : Option Expr
  dst : Dst
  deriving DecidableEq, Repr

/-- The three results `(count, offset, err)` of `evalLimit`. -/
structure LimitResult where
  count : Int
  offset : Int
  err : Option Kv.GoError
  deriving DecidableEq, Repr

/-- The loop `for _, datum := range data` of `evalLimit` followed by the final
`return count, offset, nil`, entered with the current `count` and `offset`. -/
def evalLimitLoop (p : planner) : List datum → Int → Int → Run LimitResult
  | [], count, offset => .returned ⟨count, offset, none⟩
  | d :: rest, count, offset =>
    match evalClause p d.name d.src with
    | .absent => evalLimitLoop p rest count offset
    | .typeError err => .returned ⟨0, 0, some err⟩
    | .normalizeError err => .returned ⟨0, 0, some err⟩
    | .prepared => evalLimitLoop p rest count offset
    | .evalError err => .returned ⟨0, 0, some err⟩
    | .null => evalLimitLoop p rest count offset
    | .notInt => .panicked "interface conversion"
    | .negative _ => .returned ⟨0, 0, some ⟨"negative value for " ++ d.name⟩⟩
    | .value val =>
      match d.dst with
      | .count => evalLimitLoop p rest val offset
      | .offset => evalLimitLoop p rest count val

/-- The method `planner.evalLimit`. -/
def planner.evalLimit (p : planner) (limit : Option Limit) : Run LimitResult :=
  let count := MaxInt64
  let offset := 0
  match limit with
  | none => .returned ⟨count, offset, none⟩
  | some limit =>
    evalLimitLoop p [⟨"LIMIT", limit.Count, .count⟩, ⟨"OFFSET", limit.Offset, .offset⟩]
      count offset

/-! ## limitNode -/

/-- The values of `debugValues.output`. The declaration is not in the source
file, which names `debugValueRow` and `debugValueFiltered`; `debugValueOther`
stands for every further value. -/
inductive debugValueType where
  | debugValueOther
  | debugValueFiltered
  | debugValueRow
  deriving DecidableEq, Repr

/-- The `debugValues` struct: the `output` field, and `body` standing for the
other fields. -/
structure debugValues where
  output : debugValueType
  body : Nat
  deriving DecidableEq, Repr

/-- The values of `explainMode`. The declaration is not in the source file,
which names `explainDebug`; `explainNone` is the zero value and
`explainOther` stands for every further value. -/
inductive explainMode where
  | explainNone
  | explainDebug
  | explainOther
  deriving DecidableEq, Repr

/-- What one successful `Next()` of the child plan puts it on: the row that
`Values()` returns and what `DebugValues()` returns. -/
structure childRow where
  values : Nat
  debug : debugValues
  deriving DecidableEq, Repr

/-- The child `planNode` as the limit node sees it: what its coming `Next()`
calls will stand on, in order (after them `Next()` returns false), what it
stands on now, and the last `SetLimitHint(numRows, hard)` it received. -/
structure childPlan where
  pending : List childRow
  current : Option childRow
  limitHint : Option (Int × Bool)
  deriving DecidableEq, Repr

/-- The method `Next` of the child plan. -/
def childPlan.Next (plan : childPlan) : Bool × childPlan :=
  match plan.pending with
  | [] => (false, plan)
  | r :: rest => (true, ⟨rest, some r, plan.limitHint⟩)

/-- The method `SetLimitHint` of the child plan: it records the hint. -/
def childPlan.SetLimitHint (plan : childPlan) (numRows : Int) (hard : Bool) : childPlan :=
  ⟨plan.pending, plan.current, some (numRows, hard)⟩

/-- The `limitNode` struct. -/
structure limitNode where
  plan : childPlan
  count : Int
  offset : Int
  rowIndex : Int
  explain : explainMode
  debugVals : debugValues
  deriving DecidableEq, Repr

/-- The `planNode` that `planner.limit` returns: the plan it was given, or a
new `limitNode`. -/
inductive planNode where
  | plain (plan : childPlan)
  | limit (n : limitNode)
  deriving DecidableEq, Repr

/-- The method `planner.limit`. The sum `offset+count` is an `int64`
addition. -/
def planner.limit (_p : planner) (count offset : Int) (plan : childPlan) : planNode :=
  if count = MaxInt64 ∧ offset = 0 then
    .plain plan
  else
    let plan := if count ≠ MaxInt64 then plan.SetLimitHint (wrap64 (offset + count)) false
      else plan
    .limit ⟨plan, count, offset, 0, explainMode.explainNone, ⟨debugValueType.debugValueOther, 0⟩⟩

/-- The test `n.rowIndex-n.offset >= n.count` at the head of `Next`; the
difference is an `int64` subtraction. -/
def windowFull (rowIndex offset count : Int) : Bool :=
  decide (wrap64 (rowIndex - offset) ≥ count)

/-- The `for` loop of `limitNode.Next`, entered with what the child plan still
has to yield, what it stands on, and the current `rowIndex` and `debugVals`;
the fields `count`, `offset`, `explain` and the hint of the child are taken
from `n`. Each round is one `n.plan.Next()`. -/
def limitNode.nextLoop (n : limitNode) :
    List childRow → Option childRow → Int → debugValues → Bool × limitNode
  | [], current, rowIndex, debugVals =>
    (false, ⟨⟨[], current, n.plan.limitHint⟩, n.count, n.offset, rowIndex, n.explain, debugVals⟩)
  | r :: rest, _, rowIndex, debugVals =>
    if n.explain = explainMode.explainDebug then
      if r.debug.output ≠ debugValueType.debugValueRow then
        (true, ⟨⟨rest, some r, n.plan.limitHint⟩, n.count, n.offset, rowIndex, n.explain,
          r.debug⟩)
      else if wrap64 (rowIndex + 1) > n.offset then
        (true, ⟨⟨rest, some r, n.plan.limitHint⟩, n.count, n.offset, wrap64 (rowIndex + 1),
          n.explain, r.debug⟩)
      else
        (true, ⟨⟨rest, some r, n.plan.limitHint⟩, n.count, n.offset, wrap64 (rowIndex + 1),
          n.explain, ⟨debugValueType.debugValueFiltered, r.debug.body⟩⟩)
    else if wrap64 (rowIndex + 1) > n.offset then
      (true, ⟨⟨rest, some r, n.plan.limitHint⟩, n.count, n.offset, wrap64 (rowIndex + 1),
        n.explain, debugVals⟩)
    else
      limitNode.nextLoop n rest (some r) (wrap64 (rowIndex + 1)) debugVals

/-- The method `limitNode.Next`. -/
def limitNode.Next (n : limitNode) : Bool × limitNode :=
  if windowFull n.rowIndex n.offset n.count then
    (false, n)
  else
    n.nextLoop n.plan.pending n.plan.current n.rowIndex n.debugVals

/-- The method `limitNode.Values`: the values of the row the child stands
on. -/
def limitNode.Values (n : limitNode) : Option Nat :=
  n.plan.current.map childRow.values

/-- Calls `Next` until it returns false, at most `fuel` times, collecting
`Values()` after every call that returns true. Returns the rows collected,
whether `Next` did return false, and the final node. -/
def limitNode.drain : Nat → limitNode → List (Option Nat) × Bool × limitNode
  | 0, n => ([], false, n)
  | fuel + 1, n =>
    match n.Next with
    | (false, n1) => ([], true, n1)
    | (true, n1) =>
      let r := limitNode.drain fuel n1
      (n1.Values :: r.1, r.2)

/-! ## Vocabulary of the properties -/

/-- The error with which `evalLimit` returns when the iteration for the clause
`name` goes this way, if it does return with one: the error of the type check,
of the normalisation or of the evaluation, or the error built for a negative
value. -/
def ClauseStep.failure (name : String) : ClauseStep → Option Kv.GoError
  | .typeError err => some err
  | .normalizeError err => some err
  | .evalError err => some err
  | .negative _ => some ⟨"negative value for " ++ name⟩
  | _ => none

/-- The iteration ends without a return and without a panic: the clause is
absent, not evaluated in prepare-only mode, `NULL`, or a value that is
stored. -/
def ClauseStep.passes : ClauseStep → Bool
  | .absent => true
  | .prepared => true
  | .null => true
  | .value _ => true
  | _ => false

/-- The value the iteration stores through `datum.dst`, if it stores one. -/
def ClauseStep.stored : ClauseStep → Option Int
  | .value val => some val
  | _ => none

/-! ## Concrete instances -/

/-- A planner, not in prepare-only mode, on which expression `e` type-checks
and normalises to itself and evaluates to the integer `e - 10`, except that
expression 0 evaluates to `NULL`. -/
def demoPlanner : planner :=
  ⟨false, fun e _ => .ok e, fun t => .ok t,
    fun t => .ok (if t = 0 then Datum.DNull else Datum.DInt ((t : Int) - 10))⟩

/-- The planner `demoPlanner` in prepare-only mode. -/
def demoPreparePlanner : planner :=
  ⟨true, demoPlanner.TypeCheckAndRequire, demoPlanner.NormalizeExpr, demoPlanner.Eval⟩

/-- A child plan that yields the three rows 10, 11 and 12. -/
def demoPlan : childPlan :=
  ⟨[⟨10, ⟨.debugValueRow, 0⟩⟩, ⟨11, ⟨.debugValueRow, 0⟩⟩, ⟨12, ⟨.debugValueRow, 0⟩⟩], none, none⟩

end Sql

namespace Kv

/-! ## Shared lemmas -/

theorem dispatch_lookups (e : Bool) (net : Network) (ctx : RpcContext) (c : batchClient) :
    (dispatch e net ctx c).lookups = [c.remoteAddr] := by
  cases h : ctx.GetLocalInternalServerForAddr c.remoteAddr <;> cases e <;> simp [dispatch, h]

theorem remoteAttempt_rpcCalls (net : Network) (c : batchClient) (addr : String) :
    (remoteAttempt net c addr).rpcCalls = [] ∨
      (remoteAttempt net c addr).rpcCalls = [(c.client, c.args)] := by
  unfold remoteAttempt
  rcases waitForReady addr (net.State c.conn) (net.changes c.conn) with ⟨n, x⟩
  cases x <;> simp

theorem dispatch_localCalls (e : Bool) (net : Network) (ctx : RpcContext) (c : batchClient) :
    (dispatch e net ctx c).localCalls = [] ∨ (dispatch e net ctx c).localCalls = [c.args] := by
  cases h : ctx.GetLocalInternalServerForAddr c.remoteAddr <;> cases e <;> simp [dispatch, h]

theorem dispatch_spawned (e : Bool) (net : Network) (ctx : RpcContext) (c : batchClient) :
    (dispatch e net ctx c).spawned = none ∨
      (dispatch e net ctx c).spawned = some (remoteAttempt net c c.remoteAddr) := by
  cases h : ctx.GetLocalInternalServerForAddr c.remoteAddr <;> cases e <;> simp [dispatch, h]

theorem sendNext_cons (e : Bool) (net : Network) (opts : SendOptions) (ctx : RpcContext)
    (c : batchClient) (rest : List batchClient) :
    grpcTransport.SendNext e net ⟨opts, ctx, c :: rest⟩ =
      .ok (⟨opts, ctx, rest⟩, dispatch e net ctx c) := rfl

theorem sendNext_nil (e : Bool) (net : Network) (opts : SendOptions) (ctx : RpcContext) :
    grpcTransport.SendNext e net ⟨opts, ctx, []⟩ = .panic "index out of range" := rfl

/-- Within the length of the queue, `k` calls of `SendNext` succeed, dispatch
the first `k` bindings in order and leave the rest of the queue. -/
theorem sendMany_take (e : Bool) (net : Network) (opts : SendOptions) (ctx : RpcContext) :
    ∀ (k : Nat) (cs : List batchClient), k ≤ cs.length →
      sendMany e net k ⟨opts, ctx, cs⟩ =
        .ok (⟨opts, ctx, cs.drop k⟩, (cs.take k).map (dispatch e net ctx))
  | 0, cs, _ => by simp [sendMany]
  | k + 1, [], h => by simp at h
  | k + 1, c :: rest, h => by
    have hk : k ≤ rest.length := by simpa using h
    simp [sendMany, sendNext_cons, sendMany_take e net opts ctx k rest hk]

/-- Past the length of the queue, a run of `SendNext` calls panics. -/
theorem sendMany_panic (e : Bool) (net : Network) (opts : SendOptions) (ctx : RpcContext) :
    ∀ (k : Nat) (cs : List batchClient), cs.length < k →
      sendMany e net k ⟨opts, ctx, cs⟩ = .panic "index out of range"
  | 0, cs, h => by simp at h
  | k + 1, [], _ => by simp [sendMany, sendNext_nil]
  | k + 1, c :: rest, h => by
    have hk : rest.length < k := by simpa using h
    simp [sendMany, sendNext_cons, sendMany_panic e net opts ctx k rest hk]

/-! ## The sender transport: exhaustion -/

/-- C1 (the code departs from the claim): on the transport that
`SenderTransportFactory` builds for a sender returning no reply and no error,
`IsExhausted` is false at the start, `SendNext` delivers one `BatchCall`, and
`IsExhausted` is still false afterwards: `SendNext` never sets `called`. -/
theorem senderTransport_not_exhausted_after_send :
    ∃ s s1 sent,
      SenderTransportFactory (fun _ => (none, none)) ⟨orderStable, 0⟩
          ⟨fun _ => .ok 0, fun _ => none⟩ [] ⟨1, 7⟩ = .ok s ∧
        s.IsExhausted.1 = false ∧
        s.SendNext = .ok (s1, sent) ∧
        sent = [⟨some ⟨none, 0⟩, none⟩] ∧
        s1.IsExhausted.1 = false :=
  ⟨_, _, _, rfl, rfl, rfl, rfl, rfl⟩

/-! ## The gRPC transport: exhaustion and order of dispatch -/

/-- C2: on a transport whose queue holds `N ≥ 1` bindings, every run of
`k < N` calls of `SendNext` succeeds and leaves `IsExhausted` false, the run
of `N` calls succeeds and leaves it true; in every state `IsExhausted` is true
exactly when the queue is empty, and it returns the state unchanged. -/
theorem grpcTransport_exhausted_after_all_sends (e : Bool) (net : Network) (gt : grpcTransport)
    (hN : 1 ≤ gt.orderedClients.length) :
    (∀ k, k < gt.orderedClients.length →
      ∃ gtk effs, sendMany e net k gt = .ok (gtk, effs) ∧ gtk.IsExhausted.1 = false) ∧
    (∃ gtN effs, sendMany e net gt.orderedClients.length gt = .ok (gtN, effs) ∧
      gtN.IsExhausted.1 = true) ∧
    (∀ g : grpcTransport, (g.IsExhausted.1 = true ↔ g.orderedClients = []) ∧
      g.IsExhausted.2 = g) := by
  obtain ⟨opts, ctx, cs⟩ := gt
  simp only at hN ⊢
  refine ⟨?_, ?_, ?_⟩
  · intro k hk
    refine ⟨_, _, sendMany_take e net opts ctx k cs (Nat.le_of_lt hk), ?_⟩
    simp only [grpcTransport.IsExhausted, List.length_drop, beq_eq_false_iff_ne, ne_eq]
    omega
  · refine ⟨_, _, sendMany_take e net opts ctx cs.length cs (Nat.le_refl _), ?_⟩
    simp [grpcTransport.IsExhausted]
  · intro g
    simp [grpcTransport.IsExhausted]

/-- C2, at a queue of two bindings. -/
theorem grpcTransport_exhausted_after_all_sends_witness :
    1 ≤ demoTransport.orderedClients.length ∧
    (∀ k, k < demoTransport.orderedClients.length →
      ∃ gtk effs, sendMany true demoNetwork k demoTransport = .ok (gtk, effs) ∧
        gtk.IsExhausted.1 = false) ∧
    (∃ gtN effs, sendMany true demoNetwork demoTransport.orderedClients.length demoTransport =
        .ok (gtN, effs) ∧ gtN.IsExhausted.1 = true) ∧
    (∀ g : grpcTransport, (g.IsExhausted.1 = true ↔ g.orderedClients = []) ∧
      g.IsExhausted.2 = g) :=
  ⟨by decide, grpcTransport_exhausted_after_all_sends true demoNetwork demoTransport (by decide)⟩

/-- C3: on a transport with queue `b1..bN`, call number `k + 1` of `SendNext`
(for `k < N`) comes after the dispatch of `b1..bk` in that order, dispatches
the binding at position `k` and no other (the address looked up is its
address, a request handed to the local handler or to the remote stub is its
request copy on its own stub), and leaves the queue `b(k+2)..bN`. Over the
whole lifetime the `N` calls dispatch `b1..bN`, each once, and any further
call panics without a dispatch. -/
theorem grpcTransport_dispatch_in_order (e : Bool) (net : Network) (gt : grpcTransport)
    (k : Nat) (hk : k < gt.orderedClients.length) :
    ∃ gtk effs gt1 eff,
      sendMany e net k gt = .ok (gtk, effs) ∧
      effs = (gt.orderedClients.take k).map (dispatch e net gt.rpcContext) ∧
      gtk.SendNext e net = .ok (gt1, eff) ∧
      eff = dispatch e net gt.rpcContext gt.orderedClients[k] ∧
      eff.lookups = [gt.orderedClients[k].remoteAddr] ∧
      (eff.localCalls = [] ∨ eff.localCalls = [gt.orderedClients[k].args]) ∧
      (∀ g, eff.spawned = some g →
        g.rpcCalls = [] ∨
          g.rpcCalls = [(gt.orderedClients[k].client, gt.orderedClients[k].args)]) ∧
      gt1.orderedClients = gt.orderedClients.drop (k + 1) ∧
      (∃ gtN, sendMany e net gt.orderedClients.length gt =
        .ok (gtN, gt.orderedClients.map (dispatch e net gt.rpcContext))) ∧
      (∀ m, gt.orderedClients.length < m →
        sendMany e net m gt = .panic "index out of range") := by
  obtain ⟨opts, ctx, cs⟩ := gt
  simp only at hk ⊢
  have hdrop : cs.drop k = cs[k] :: cs.drop (k + 1) := List.drop_eq_getElem_cons hk
  refine ⟨_, _, ⟨opts, ctx, cs.drop (k + 1)⟩, dispatch e net ctx cs[k],
    sendMany_take e net opts ctx k cs (Nat.le_of_lt hk), rfl, ?_, rfl,
    dispatch_lookups e net ctx _, dispatch_localCalls e net ctx _, ?_, rfl, ?_, ?_⟩
  · rw [hdrop]
    rfl
  · intro g hg
    rcases dispatch_spawned e net ctx cs[k] with h | h
    · rw [h] at hg
      cases hg
    · rw [h] at hg
      cases hg
      exact remoteAttempt_rpcCalls net cs[k] _
  · refine ⟨⟨opts, ctx, cs.drop cs.length⟩, ?_⟩
    have h := sendMany_take e net opts ctx cs.length cs (Nat.le_refl _)
    rw [List.take_length] at h
    exact h
  · intro m hm
    exact sendMany_panic e net opts ctx m cs hm

/-- C3, at the second call on a queue of two bindings. -/
theorem grpcTransport_dispatch_in_order_witness :
    1 < demoTransport.orderedClients.length ∧
    ∃ gtk effs gt1 eff,
      sendMany true demoNetwork 1 demoTransport = .ok (gtk, effs) ∧
      effs = (demoTransport.orderedClients.take 1).map
        (dispatch true demoNetwork demoTransport.rpcContext) ∧
      gtk.SendNext true demoNetwork = .ok (gt1, eff) ∧
      eff = dispatch true demoNetwork demoTransport.rpcContext
        (demoTransport.orderedClients.get ⟨1, by decide⟩) ∧
      eff.lookups = [(demoTransport.orderedClients.get ⟨1, by decide⟩).remoteAddr] ∧
      (eff.localCalls = [] ∨
        eff.localCalls = [(demoTransport.orderedClients.get ⟨1, by decide⟩).args]) ∧
      (∀ g, eff.spawned = some g →
        g.rpcCalls = [] ∨
          g.rpcCalls = [((demoTransport.orderedClients.get ⟨1, by decide⟩).client,
            (demoTransport.orderedClients.get ⟨1, by decide⟩).args)]) ∧
      gt1.orderedClients = demoTransport.orderedClients.drop (1 + 1) ∧
      (∃ gtN, sendMany true demoNetwork demoTransport.orderedClients.length demoTransport =
        .ok (gtN, demoTransport.orderedClients.map
          (dispatch true demoNetwork demoTransport.rpcContext))) ∧
      (∀ m, demoTransport.orderedClients.length < m →
        sendMany true demoNetwork m demoTransport = .panic "index out of range") :=
  ⟨by decide, grpcTransport_dispatch_in_order true demoNetwork demoTransport 1 (by decide)⟩

/-! ## The factory: health partition -/

/-- A healthy block followed by an unhealthy block has no unhealthy binding
before a healthy one. -/
theorem healthOrdered_append (healthy : batchClient → Bool) (l1 l2 : List batchClient)
    (h1 : ∀ c ∈ l1, healthy c = true) (h2 : ∀ c ∈ l2, healthy c = false) :
    (l1 ++ l2).Pairwise (healthOrdered healthy) := by
  rw [List.pairwise_append]
  refine ⟨?_, ?_, ?_⟩
  · apply List.pairwise_of_forall_mem_list
    intro a ha b _ hab
    rw [h1 a ha] at hab
    exact absurd hab.1 (by decide)
  · apply List.pairwise_of_forall_mem_list
    intro a _ b hb hab
    rw [h2 b hb] at hab
    exact absurd hab.2 (by decide)
  · intro a ha b _ hab
    rw [h1 a ha] at hab
    exact absurd hab.1 (by decide)

/-- Under either ordering constant, `orderClients` applied to a slice whose
first `nHealthy` elements are the healthy ones returns a permutation of it
with no unhealthy binding before a healthy one. -/
theorem orderClients_partitioned (healthy : batchClient → Bool)
    (shuffleClients : Rng → List batchClient → List batchClient × Rng) (rng : Rng)
    (ordering : orderingPolicy) (cs : List batchClient) (n : Int) (out : List batchClient)
    (hshuffle : ∀ g l, (shuffleClients g l).1.Perm l)
    (hord : ordering = orderStable ∨ ordering = orderRandom)
    (hn : 0 ≤ n ∧ n ≤ (cs.length : Int))
    (h1 : ∀ c ∈ cs.take n.toNat, healthy c = true)
    (h2 : ∀ c ∈ cs.drop n.toNat, healthy c = false)
    (hout : orderClients shuffleClients rng ordering cs n = .ok out) :
    out.Perm cs ∧ out.Pairwise (healthOrdered healthy) := by
  rcases hord with h | h
  · subst h
    simp only [orderClients, if_true, Exec.ok.injEq] at hout
    subst hout
    refine ⟨List.Perm.refl _, ?_⟩
    have := healthOrdered_append healthy _ _ h1 h2
    rwa [List.take_append_drop] at this
  · subst h
    have hne : orderRandom ≠ orderStable := by decide
    have hrange : ¬(n < 0 ∨ (cs.length : Int) < n) := by omega
    simp only [orderClients, if_neg hne, if_true, if_neg hrange, Exec.ok.injEq] at hout
    subst hout
    have p1 := hshuffle rng (cs.take n.toNat)
    have p2 := hshuffle (shuffleClients rng (cs.take n.toNat)).2 (cs.drop n.toNat)
    refine ⟨?_, ?_⟩
    · have := List.Perm.append p1 p2
      rwa [List.take_append_drop] at this
    · apply healthOrdered_append
      · intro c hc
        exact h1 c (p1.mem_iff.mp hc)
      · intro c hc
        exact h2 c (p2.mem_iff.mp hc)

/-- C4: for every candidate list and either ordering constant, if
`splitHealthy` rearranges the bindings so that the first `nHealthy` are the
healthy ones and `shuffleClients` only permutes its slice, then the queue of
the transport that `grpcTransportFactory` returns is a permutation of the
bindings built for the candidates, with no unhealthy binding before a healthy
one. -/
theorem grpcTransportFactory_partition (healthy : batchClient → Bool)
    (splitHealthy : List batchClient → Except GoError (List batchClient × Int))
    (shuffleClients : Rng → List batchClient → List batchClient × Rng) (rng : Rng)
    (opts : SendOptions) (rpcContext : RpcContext) (replicas : List ReplicaInfo)
    (args : BatchRequest) (gt : grpcTransport)
    (hsplit : ∀ cs cs1 n, splitHealthy cs = .ok (cs1, n) →
      cs1.Perm cs ∧ (0 ≤ n ∧ n ≤ (cs1.length : Int)) ∧
        (∀ c ∈ cs1.take n.toNat, healthy c = true) ∧
        (∀ c ∈ cs1.drop n.toNat, healthy c = false))
    (hshuffle : ∀ g l, (shuffleClients g l).1.Perm l)
    (hord : opts.Ordering = orderStable ∨ opts.Ordering = orderRandom)
    (hgt : (grpcTransportFactory splitHealthy shuffleClients rng opts rpcContext replicas
      args).result = .ok gt) :
    ∃ clients, (dialClients rpcContext args replicas []).2 = .ok clients ∧
      gt.orderedClients.Perm clients ∧
      gt.orderedClients.Pairwise (healthOrdered healthy) := by
  unfold grpcTransportFactory at hgt
  rcases hd : dialClients rpcContext args replicas [] with ⟨dialed, _ | clients⟩
  · rw [hd] at hgt
    cases hgt
  · rw [hd] at hgt
    simp only at hgt
    rcases hs : splitHealthy clients with _ | ⟨cs1, n⟩
    · rw [hs] at hgt
      cases hgt
    · rw [hs] at hgt
      simp only at hgt
      obtain ⟨hperm, hn, h1, h2⟩ := hsplit clients cs1 n hs
      rcases ho : orderClients shuffleClients rng opts.Ordering cs1 n with out | err | what
      · rw [ho] at hgt
        simp only [Exec.ok.injEq] at hgt
        subst hgt
        obtain ⟨hp, hw⟩ := orderClients_partitioned healthy shuffleClients rng opts.Ordering
          cs1 n out hshuffle hord hn h1 h2 ho
        exact ⟨clients, rfl, hp.trans hperm, hw⟩
      · rw [ho] at hgt
        cases hgt
      · rw [ho] at hgt
        cases hgt

theorem demoSplit_spec (cs cs1 : List batchClient) (n : Int)
    (h : demoSplit cs = .ok (cs1, n)) :
    cs1.Perm cs ∧ (0 ≤ n ∧ n ≤ (cs1.length : Int)) ∧
      (∀ c ∈ cs1.take n.toNat, demoHealthy c = true) ∧
      (∀ c ∈ cs1.drop n.toNat, demoHealthy c = false) := by
  simp only [demoSplit, Except.ok.injEq, Prod.mk.injEq] at h
  obtain ⟨rfl, rfl⟩ := h
  refine ⟨List.filter_append_perm demoHealthy cs, ⟨by omega, ?_⟩, ?_, ?_⟩
  · simp only [List.length_append]
    omega
  · intro c hc
    rw [Int.toNat_ofNat, List.take_left] at hc
    exact (List.mem_filter.mp hc).2
  · intro c hc
    rw [Int.toNat_ofNat, List.drop_left] at hc
    simpa using (List.mem_filter.mp hc).2

theorem demoShuffle_perm (g : Rng) (l : List batchClient) : (demoShuffle g l).1.Perm l :=
  List.reverse_perm l

/-- C4, at three candidates of which the second is unhealthy, under the
randomized ordering with a reversing shuffle: the queue is `c, a, b`. -/
theorem grpcTransportFactory_partition_witness :
    (grpcTransportFactory demoSplit demoShuffle 0 ⟨orderRandom, 0⟩ demoContext demoReplicas
      ⟨0, 7⟩).result =
      .ok ⟨⟨orderRandom, 0⟩, demoContext,
        [⟨"c", 2, ⟨2⟩, ⟨3, 7⟩⟩, ⟨"a", 0, ⟨0⟩, ⟨1, 7⟩⟩, ⟨"b", 1, ⟨1⟩, ⟨2, 7⟩⟩]⟩ ∧
    ∃ clients, (dialClients demoContext ⟨0, 7⟩ demoReplicas []).2 = .ok clients ∧
      List.Perm [⟨"c", 2, ⟨2⟩, ⟨3, 7⟩⟩, ⟨"a", 0, ⟨0⟩, ⟨1, 7⟩⟩, ⟨"b", 1, ⟨1⟩, ⟨2, 7⟩⟩] clients ∧
      List.Pairwise (healthOrdered demoHealthy)
        [⟨"c", 2, ⟨2⟩, ⟨3, 7⟩⟩, ⟨"a", 0, ⟨0⟩, ⟨1, 7⟩⟩, ⟨"b", 1, ⟨1⟩, ⟨2, 7⟩⟩] :=
  ⟨rfl, grpcTransportFactory_partition demoHealthy demoSplit demoShuffle 0 ⟨orderRandom, 0⟩
    demoContext demoReplicas ⟨0, 7⟩ _ demoSplit_spec demoShuffle_perm (Or.inr rfl) rfl⟩

/-! ## The readiness loop -/

/-- The two ways `SendNext` goes on a non-empty queue. -/
theorem sendNext_local (e : Bool) (net : Network) (gt : grpcTransport) (c : batchClient)
    (rest : List batchClient) (srv : InternalServer) (hq : gt.orderedClients = c :: rest)
    (he : e = true) (hsrv : gt.rpcContext.GetLocalInternalServerForAddr c.remoteAddr = some srv) :
    gt.SendNext e net = .ok (⟨gt.opts, gt.rpcContext, rest⟩,
      ⟨[c.remoteAddr], [c.args], [⟨(srv c.args).1, (srv c.args).2⟩], none⟩) := by
  obtain ⟨opts, ctx, cs⟩ := gt
  simp only at hq hsrv
  subst hq he
  simp [grpcTransport.SendNext, dispatch, hsrv]

theorem sendNext_remote (e : Bool) (net : Network) (gt : grpcTransport) (c : batchClient)
    (rest : List batchClient) (hq : gt.orderedClients = c :: rest)
    (hpath : e = false ∨ gt.rpcContext.GetLocalInternalServerForAddr c.remoteAddr = none) :
    gt.SendNext e net = .ok (⟨gt.opts, gt.rpcContext, rest⟩,
      ⟨[c.remoteAddr], [], [], some (remoteAttempt net c c.remoteAddr)⟩) := by
  obtain ⟨opts, ctx, cs⟩ := gt
  simp only at hq hpath
  subst hq
  rcases hpath with h | h
  · subst h
    cases hs : ctx.GetLocalInternalServerForAddr c.remoteAddr <;>
      simp [grpcTransport.SendNext, dispatch, hs]
  · simp [grpcTransport.SendNext, dispatch, h]

theorem loopStep_of_ends (addr : String) (o : Observation) (h : o.ends = true) :
    ∃ x, loopStep addr o = some x ∧ x ≠ LoopExit.blocked := by
  obtain ⟨st, err⟩ := o
  cases st <;> cases err <;> simp_all [loopStep, Observation.ends]

theorem loopStep_of_not_ends (addr : String) (o : Observation) (h : o.ends = false) :
    loopStep addr o = none := by
  obtain ⟨st, err⟩ := o
  cases st <;> cases err <;> simp_all [loopStep, Observation.ends]

theorem waitForReady_ends (addr : String) (o : Observation) (rest : List Observation)
    (x : LoopExit) (h : loopStep addr o = some x) : waitForReady addr o rest = (0, x) := by
  cases rest <;> simp [waitForReady, h]

theorem waitForReady_step (addr : String) (o o1 : Observation) (rest : List Observation)
    (h : o.ends = false) :
    waitForReady addr o (o1 :: rest) =
      ((waitForReady addr o1 rest).1 + 1, (waitForReady addr o1 rest).2) := by
  simp [waitForReady, loopStep_of_not_ends addr o h]

/-- After a run of observations that do not end the loop, the loop ends at
the first one that does, having made one `WaitForStateChange` call for each
observation skipped. -/
theorem waitForReady_skip (addr : String) :
    ∀ (pre : List Observation) (o : Observation) (post : List Observation)
      (o0 : Observation) (rest : List Observation) (x : LoopExit),
      o0 :: rest = pre ++ o :: post → (∀ y ∈ pre, y.ends = false) →
      loopStep addr o = some x → waitForReady addr o0 rest = (pre.length, x)
  | [], o, post, o0, rest, x, hs, _, ho => by
    simp only [List.nil_append, List.cons.injEq] at hs
    obtain ⟨rfl, rfl⟩ := hs
    exact waitForReady_ends addr o0 rest x ho
  | p :: pre, o, post, o0, rest, x, hs, hpre, ho => by
    simp only [List.cons_append, List.cons.injEq] at hs
    obtain ⟨rfl, rfl⟩ := hs
    have hp : o0.ends = false := hpre o0 (List.mem_cons_self _ _)
    have hrest : ∀ y ∈ pre, y.ends = false := fun y hy => hpre y (List.mem_cons_of_mem _ hy)
    cases pre with
    | nil =>
      rw [List.nil_append, waitForReady_step addr o0 o post hp,
        waitForReady_ends addr o post x ho]
      rfl
    | cons q pre1 =>
      rw [List.cons_append, waitForReady_step addr o0 q (pre1 ++ o :: post) hp,
        waitForReady_skip addr (q :: pre1) o post q (pre1 ++ o :: post) x rfl hrest ho]
      rfl

/-- A script with an observation that ends the loop splits at the first such
observation. -/
theorem script_split :
    ∀ (l : List Observation), (∃ x ∈ l, x.ends = true) →
      ∃ pre o post, l = pre ++ o :: post ∧ (∀ x ∈ pre, x.ends = false) ∧ o.ends = true
  | [], h => by simp at h
  | a :: l, h => by
    cases ha : a.ends with
    | true => exact ⟨[], a, l, rfl, by simp, ha⟩
    | false =>
      have hl : ∃ x ∈ l, x.ends = true := by
        obtain ⟨x, hx, hxe⟩ := h
        rcases List.mem_cons.mp hx with rfl | hx
        · rw [ha] at hxe
          cases hxe
        · exact ⟨x, hx, hxe⟩
      obtain ⟨pre, o, post, hsplit, hpre, ho⟩ := script_split l hl
      refine ⟨a :: pre, o, post, by rw [hsplit]; rfl, ?_, ho⟩
      intro x hx
      rcases List.mem_cons.mp hx with rfl | hx
      · exact ha
      · exact hpre x hx

/-- The goroutine on a script that reaches an observation ending the loop. -/
theorem remoteAttempt_skip (net : Network) (c : batchClient) (addr : String)
    (pre : List Observation) (o : Observation) (post : List Observation) (x : LoopExit)
    (hs : net.script c.conn = pre ++ o :: post) (hpre : ∀ y ∈ pre, y.ends = false)
    (ho : loopStep addr o = some x) :
    remoteAttempt net c addr =
      match x with
      | LoopExit.ready =>
        ⟨pre.length, [(c.client, c.args)],
          [⟨(net.Batch c.client c.args).1, (net.Batch c.client c.args).2⟩], true⟩
      | LoopExit.failed call => ⟨pre.length, [], [call], true⟩
      | LoopExit.blocked => ⟨pre.length, [], [], false⟩ := by
  unfold remoteAttempt
  rw [waitForReady_skip addr pre o post _ _ x hs hpre ho]
  cases x <;> rfl

/-- The goroutine sends exactly one value when the script holds an
observation that ends the loop. -/
theorem remoteAttempt_sent_one (net : Network) (c : batchClient) (addr : String)
    (h : ∃ o ∈ net.script c.conn, o.ends = true) :
    (remoteAttempt net c addr).sent.length = 1 := by
  obtain ⟨pre, o, post, hs, hpre, ho⟩ := script_split _ h
  obtain ⟨x, hx, hnb⟩ := loopStep_of_ends addr o ho
  rw [remoteAttempt_skip net c addr pre o post x hs hpre hx]
  cases x with
  | ready => rfl
  | failed call => rfl
  | blocked => exact absurd rfl hnb

/-- What `senderTransport.SendNext` does when the reply of the sender carries
no embedded error. -/
theorem senderSendNext_ok (s : senderTransport)
    (h : ∀ b, (s.sender s.args).1 = some b → b.Error = none) :
    s.SendNext = .ok (s, [⟨some ⟨(s.sender s.args).2,
      (match (s.sender s.args).1 with
        | none => 0
        | some b => b.body)⟩, none⟩]) := by
  unfold senderTransport.SendNext
  rcases hr : s.sender s.args with ⟨br, pErr⟩
  rw [hr] at h
  cases br with
  | none => simp
  | some b =>
    have hb : b.Error = none := h b rfl
    simp [hb]

/-! ## Delivery of the outcome -/

/-- C5: a `SendNext` call on a non-exhausted gRPC transport causes exactly one
`BatchCall` to be sent on `done` when it takes the local fast path, and when
the script of the connection holds an observation that ends the readiness
loop (state `Ready` or `Shutdown`, or an error); a `SendNext` call on the
sender transport sends exactly one `BatchCall` when the reply of the sender
carries no embedded error. -/
theorem sendNext_delivers_exactly_one (e : Bool) (net : Network) (gt : grpcTransport)
    (c : batchClient) (rest : List batchClient) (s : senderTransport) :
    (gt.orderedClients = c :: rest →
      ((e = true ∧ (gt.rpcContext.GetLocalInternalServerForAddr c.remoteAddr).isSome = true) ∨
        ∃ o ∈ net.script c.conn, o.ends = true) →
      ∃ gt1 eff, gt.SendNext e net = .ok (gt1, eff) ∧ eff.delivered.length = 1) ∧
    ((∀ b, (s.sender s.args).1 = some b → b.Error = none) →
      ∃ s1 sent, s.SendNext = .ok (s1, sent) ∧ sent.length = 1) := by
  refine ⟨?_, ?_⟩
  · intro hq hpath
    cases hsrv : gt.rpcContext.GetLocalInternalServerForAddr c.remoteAddr with
    | none =>
      rw [hsrv] at hpath
      have hscript : ∃ o ∈ net.script c.conn, o.ends = true := by
        rcases hpath with ⟨_, h⟩ | h
        · cases h
        · exact h
      refine ⟨_, _, sendNext_remote e net gt c rest hq (Or.inr hsrv), ?_⟩
      simpa [SendEffects.delivered] using remoteAttempt_sent_one net c c.remoteAddr hscript
    | some srv =>
      cases e with
      | true =>
        refine ⟨_, _, sendNext_local true net gt c rest srv hq rfl hsrv, ?_⟩
        simp [SendEffects.delivered]
      | false =>
        rw [hsrv] at hpath
        have hscript : ∃ o ∈ net.script c.conn, o.ends = true := by
          rcases hpath with ⟨h, _⟩ | h
          · cases h
          · exact h
        refine ⟨_, _, sendNext_remote false net gt c rest hq (Or.inl rfl), ?_⟩
        simpa [SendEffects.delivered] using remoteAttempt_sent_one net c c.remoteAddr hscript
  · intro h
    exact ⟨_, _, senderSendNext_ok s h, rfl⟩

/-- C5, on the remote path with a connection that is idle, connecting, then
ready, and on a sender transport whose reply has no embedded error. -/
theorem sendNext_delivers_exactly_one_witness :
    (∃ gt1 eff, demoTransport.SendNext true demoSlowNetwork = .ok (gt1, eff) ∧
      eff.delivered.length = 1) ∧
    (∃ s1 sent, demoSender.SendNext = .ok (s1, sent) ∧ sent.length = 1) :=
  ⟨(sendNext_delivers_exactly_one true demoSlowNetwork demoTransport demoClient
      [⟨"b", 1, ⟨1⟩, ⟨2, 7⟩⟩] demoSender).1 rfl
      (Or.inr ⟨⟨.Ready, none⟩, by decide, rfl⟩),
    (sendNext_delivers_exactly_one true demoSlowNetwork demoTransport demoClient
      [⟨"b", 1, ⟨1⟩, ⟨2, 7⟩⟩] demoSender).2
      (by intro b h; cases h; rfl)⟩

/-! ## Shape of the outcome -/

theorem loopStep_failed (addr : String) (o : Observation) (call : BatchCall)
    (h : loopStep addr o = some (LoopExit.failed call)) :
    call.Reply = none ∧ call.Err.isSome = true := by
  obtain ⟨st, err⟩ := o
  cases st <;> cases err <;> simp [loopStep] at h <;> subst h <;> exact ⟨rfl, rfl⟩

/-- A `BatchCall` sent by the readiness loop itself carries an error and no
reply. -/
theorem waitForReady_failed (addr : String) :
    ∀ (rest : List Observation) (o : Observation) (call : BatchCall),
      (waitForReady addr o rest).2 = LoopExit.failed call →
      call.Reply = none ∧ call.Err.isSome = true
  | [], o, call, h => by
    cases hl : loopStep addr o with
    | none => simp [waitForReady, hl] at h
    | some x =>
      simp only [waitForReady, hl] at h
      subst h
      exact loopStep_failed addr o call hl
  | o1 :: rest, o, call, h => by
    cases hl : loopStep addr o with
    | none =>
      simp only [waitForReady, hl] at h
      exact waitForReady_failed addr rest o1 call h
    | some x =>
      simp only [waitForReady, hl] at h
      subst h
      exact loopStep_failed addr o call hl

/-- Every value the goroutine sends is the pair returned by the remote call,
or an error with no reply. -/
theorem remoteAttempt_sent (net : Network) (c : batchClient) (addr : String)
    (call : BatchCall) (h : call ∈ (remoteAttempt net c addr).sent) :
    call = ⟨(net.Batch c.client c.args).1, (net.Batch c.client c.args).2⟩ ∨
      (call.Reply = none ∧ call.Err.isSome = true) := by
  unfold remoteAttempt at h
  rcases hw : waitForReady addr (net.State c.conn) (net.changes c.conn) with ⟨n, x⟩
  rw [hw] at h
  cases x with
  | ready =>
    left
    simpa using h
  | failed call1 =>
    right
    have hc : call = call1 := by simpa using h
    subst hc
    exact waitForReady_failed addr _ _ call (by rw [hw])
  | blocked => simp at h

/-- C6 (as stated, refuted): with the local fast path enabled and an
in-process handler that returns a nil reply and a nil error, `SendNext`
delivers a `BatchCall` with neither reply nor error. -/
theorem sendNext_outcome_neither :
    ∃ gt1 eff,
      grpcTransport.SendNext true demoNetwork ⟨⟨orderStable, 0⟩, demoSilentContext, [demoClient]⟩ =
        .ok (gt1, eff) ∧
      eff.delivered = [⟨none, none⟩] ∧
      ∃ call ∈ eff.delivered, exactlyOne call.Reply call.Err = false :=
  ⟨_, _, rfl, rfl, ⟨none, none⟩, by decide, rfl⟩

/-- What the goroutine sends, by whether it issued the remote call: without a
call, every value sent is a readiness-wait failure, an error with no reply;
with a call, the one value sent is the pair the call returned. -/
theorem remoteAttempt_sent_cases (net : Network) (c : batchClient) (addr : String) :
    ((remoteAttempt net c addr).rpcCalls = [] →
      ∀ call ∈ (remoteAttempt net c addr).sent,
        call.Reply = none ∧ call.Err.isSome = true) ∧
    ((remoteAttempt net c addr).rpcCalls ≠ [] →
      (remoteAttempt net c addr).sent =
        [⟨(net.Batch c.client c.args).1, (net.Batch c.client c.args).2⟩]) := by
  unfold remoteAttempt
  rcases hw : waitForReady addr (net.State c.conn) (net.changes c.conn) with ⟨n, x⟩
  cases x with
  | ready =>
    refine ⟨fun h => ?_, fun _ => rfl⟩
    simp at h
  | failed call1 =>
    refine ⟨fun _ call hc => ?_, fun h => ?_⟩
    · have hcall : call = call1 := by simpa using hc
      subst hcall
      exact waitForReady_failed addr _ _ call (by rw [hw])
    · simp at h
  | blocked =>
    refine ⟨fun _ call hc => ?_, fun h => ?_⟩
    · simp at hc
    · simp at h

/-- C6 (amended): on a non-exhausted gRPC transport `SendNext` succeeds and,
path by path: on the local fast path the one `BatchCall` delivered is the pair
the in-process handler returned, so it has exactly one of `Reply` and `Err`
present whenever that pair has; on the remote path a `BatchCall` delivered
without a remote call (a readiness-wait failure) always has `Err` present and
`Reply` absent, whatever the remote call would return, and the `BatchCall`
delivered after a remote call is the pair the call returned, so it has exactly
one present whenever that pair has. Every `BatchCall` that
`senderTransport.SendNext` delivers has a reply and no error. -/
theorem sendNext_outcome_exactly_one (e : Bool) (net : Network) (gt : grpcTransport)
    (c : batchClient) (rest : List batchClient) (s : senderTransport)
    (hq : gt.orderedClients = c :: rest) :
    (∀ srv, e = true → gt.rpcContext.GetLocalInternalServerForAddr c.remoteAddr = some srv →
      ∃ gt1 eff, gt.SendNext e net = .ok (gt1, eff) ∧
        eff.delivered = [⟨(srv c.args).1, (srv c.args).2⟩] ∧
        (exactlyOne (srv c.args).1 (srv c.args).2 = true →
          ∀ call ∈ eff.delivered, exactlyOne call.Reply call.Err = true)) ∧
    ((e = false ∨ gt.rpcContext.GetLocalInternalServerForAddr c.remoteAddr = none) →
      ∃ gt1 eff g, gt.SendNext e net = .ok (gt1, eff) ∧ eff.spawned = some g ∧
        eff.delivered = g.sent ∧
        (g.rpcCalls = [] →
          ∀ call ∈ eff.delivered, call.Reply = none ∧ call.Err.isSome = true ∧
            exactlyOne call.Reply call.Err = true) ∧
        (g.rpcCalls ≠ [] →
          eff.delivered = [⟨(net.Batch c.client c.args).1, (net.Batch c.client c.args).2⟩]) ∧
        (exactlyOne (net.Batch c.client c.args).1 (net.Batch c.client c.args).2 = true →
          ∀ call ∈ eff.delivered, exactlyOne call.Reply call.Err = true)) ∧
    (∀ s1 sent, s.SendNext = .ok (s1, sent) →
      ∀ call ∈ sent, call.Reply.isSome = true ∧ call.Err = none ∧
        exactlyOne call.Reply call.Err = true) := by
  refine ⟨?_, ?_, ?_⟩
  · intro srv he hsrv
    refine ⟨_, _, sendNext_local e net gt c rest srv hq he hsrv, ?_, ?_⟩
    · simp [SendEffects.delivered]
    · intro hpair call hc
      have hcall : call = ⟨(srv c.args).1, (srv c.args).2⟩ := by
        simpa [SendEffects.delivered] using hc
      subst hcall
      exact hpair
  · intro hpath
    obtain ⟨hwait, hcall⟩ := remoteAttempt_sent_cases net c c.remoteAddr
    have hdel : (⟨[c.remoteAddr], [], [],
        some (remoteAttempt net c c.remoteAddr)⟩ : SendEffects).delivered =
        (remoteAttempt net c c.remoteAddr).sent := by
      simp [SendEffects.delivered]
    refine ⟨_, _, _, sendNext_remote e net gt c rest hq hpath, rfl, hdel, ?_, ?_, ?_⟩
    · intro hno call hc
      rw [hdel] at hc
      obtain ⟨h1, h2⟩ := hwait hno call hc
      exact ⟨h1, h2, by simp [exactlyOne, h1, h2]⟩
    · intro hyes
      rw [hdel]
      exact hcall hyes
    · intro hpair call hc
      rw [hdel] at hc
      rcases remoteAttempt_sent net c c.remoteAddr call hc with h | ⟨h1, h2⟩
      · subst h
        exact hpair
      · simp [exactlyOne, h1, h2]
  · intro s1 sent hs call hc
    unfold senderTransport.SendNext at hs
    rcases hr : s.sender s.args with ⟨br, pErr⟩
    rw [hr] at hs
    simp only at hs
    split at hs
    · cases hs
    · simp only [Exec.ok.injEq, Prod.mk.injEq] at hs
      obtain ⟨_, rfl⟩ := hs
      rw [List.mem_singleton] at hc
      subst hc
      exact ⟨rfl, rfl, rfl⟩

/-- C6 (amended), on the local fast path with a handler returning a reply and
no error; on the remote path with a connection that is shut down and a remote
call that would return neither reply nor error; and on a sender transport. -/
theorem sendNext_outcome_exactly_one_witness :
    (∃ gt1 eff,
      grpcTransport.SendNext true demoNetwork ⟨⟨orderStable, 0⟩, demoLocalContext, [demoClient]⟩ =
        .ok (gt1, eff) ∧
      eff.delivered = [⟨some ⟨none, 9⟩, none⟩] ∧
      ∀ call ∈ eff.delivered, exactlyOne call.Reply call.Err = true) ∧
    (∃ gt1 eff,
      grpcTransport.SendNext true demoShutSilentNetwork
        ⟨⟨orderStable, 0⟩, demoContext, [demoClient]⟩ = .ok (gt1, eff) ∧
      exactlyOne (demoShutSilentNetwork.Batch demoClient.client demoClient.args).1
        (demoShutSilentNetwork.Batch demoClient.client demoClient.args).2 = false ∧
      ∀ call ∈ eff.delivered, call.Reply = none ∧ call.Err.isSome = true ∧
        exactlyOne call.Reply call.Err = true) ∧
    (∀ s1 sent, demoSender.SendNext = .ok (s1, sent) →
      ∀ call ∈ sent, call.Reply.isSome = true ∧ call.Err = none ∧
        exactlyOne call.Reply call.Err = true) := by
  refine ⟨?_, ?_, ?_⟩
  · obtain ⟨gt1, eff, h1, h2, h3⟩ :=
      (sendNext_outcome_exactly_one true demoNetwork
        ⟨⟨orderStable, 0⟩, demoLocalContext, [demoClient]⟩ demoClient [] demoSender rfl).1
        (fun _ => (some ⟨none, 9⟩, none)) rfl rfl
    exact ⟨gt1, eff, h1, h2, h3 rfl⟩
  · obtain ⟨gt1, eff, g, h1, h2, _, h3, _, _⟩ :=
      (sendNext_outcome_exactly_one true demoShutSilentNetwork
        ⟨⟨orderStable, 0⟩, demoContext, [demoClient]⟩ demoClient [] demoSender rfl).2.1
        (Or.inr rfl)
    have hg : g = remoteAttempt demoShutSilentNetwork demoClient demoClient.remoteAddr := by
      have h0 := sendNext_remote true demoShutSilentNetwork
        ⟨⟨orderStable, 0⟩, demoContext, [demoClient]⟩ demoClient [] rfl (Or.inr rfl)
      rw [h0] at h1
      simp only [Exec.ok.injEq, Prod.mk.injEq] at h1
      obtain ⟨_, rfl⟩ := h1
      simp only [Option.some.injEq] at h2
      exact h2.symm
    exact ⟨gt1, eff, h1, rfl, h3 (by rw [hg]; rfl)⟩
  · exact (sendNext_outcome_exactly_one true demoNetwork
      ⟨⟨orderStable, 0⟩, demoLocalContext, [demoClient]⟩ demoClient [] demoSender rfl).2.2

/-! ## The remote path -/

/-- C7 (as stated, refuted): on the remote path, when `State()` reports
`Ready` together with an error, the loop condition fails before the error is
looked at: the remote call is issued and its reply is delivered, not the
error. -/
theorem sendNext_ready_with_error_issues_call :
    ∃ gt1 eff g,
      demoTransport.SendNext true demoReadyErrNetwork = .ok (gt1, eff) ∧
      eff.spawned = some g ∧
      (demoReadyErrNetwork.State demoClient.conn).err = some ⟨"context deadline exceeded"⟩ ∧
      g.rpcCalls = [(demoClient.client, demoClient.args)] ∧
      g.sent = [⟨some ⟨none, 5⟩, none⟩] :=
  ⟨_, _, _, rfl, rfl, rfl, rfl, rfl⟩

/-- C7 (amended): on the remote path, if the loop reaches an observation (all
earlier ones neither end the loop) that reports an error together with a state
other than `Ready`, the goroutine delivers exactly that error with no reply,
issues no remote call and waits for no further state change. -/
theorem sendNext_observation_error (e : Bool) (net : Network) (gt : grpcTransport)
    (c : batchClient) (rest : List batchClient)
    (pre : List Observation) (o : Observation) (post : List Observation) (err : GoError)
    (hq : gt.orderedClients = c :: rest)
    (hpath : e = false ∨ gt.rpcContext.GetLocalInternalServerForAddr c.remoteAddr = none)
    (hs : net.script c.conn = pre ++ o :: post) (hpre : ∀ y ∈ pre, y.ends = false)
    (herr : o.err = some err) (hstate : o.state ≠ ConnectivityState.Ready) :
    ∃ gt1 eff g, gt.SendNext e net = .ok (gt1, eff) ∧ eff.spawned = some g ∧
      eff.sent = [] ∧ eff.localCalls = [] ∧
      g.sent = [⟨none, some err⟩] ∧ g.rpcCalls = [] ∧ g.waits = pre.length ∧
      g.finished = true := by
  have hstep : loopStep c.remoteAddr o = some (LoopExit.failed ⟨none, some err⟩) := by
    simp [loopStep, hstate, herr]
  refine ⟨_, _, _, sendNext_remote e net gt c rest hq hpath, rfl, rfl, rfl, ?_⟩
  rw [remoteAttempt_skip net c c.remoteAddr pre o post _ hs hpre hstep]
  exact ⟨rfl, rfl, rfl, rfl⟩

/-- C7 (amended), on a connection that is idle, then in transient failure
with an error. -/
theorem sendNext_observation_error_witness :
    ∃ gt1 eff g, demoTransport.SendNext true demoFailingNetwork = .ok (gt1, eff) ∧
      eff.spawned = some g ∧ eff.sent = [] ∧ eff.localCalls = [] ∧
      g.sent = [⟨none, some ⟨"context deadline exceeded"⟩⟩] ∧ g.rpcCalls = [] ∧
      g.waits = [(⟨.Idle, none⟩ : Observation)].length ∧ g.finished = true :=
  sendNext_observation_error true demoFailingNetwork demoTransport demoClient
    [⟨"b", 1, ⟨1⟩, ⟨2, 7⟩⟩] [⟨.Idle, none⟩]
    ⟨.TransientFailure, some ⟨"context deadline exceeded"⟩⟩ [] ⟨"context deadline exceeded"⟩
    rfl (Or.inr rfl) rfl (by decide) rfl (by decide)

/-- C8: on the remote path, if the loop reaches an observation (all earlier
ones neither end the loop, so `Ready` has not been observed) that reports
`Shutdown` with no error, the goroutine delivers the error
"rpc to ADDR failed as client connection was closed" for the address of the
binding, with no reply, issues no remote call and waits for no further state
change. -/
theorem sendNext_shutdown (e : Bool) (net : Network) (gt : grpcTransport)
    (c : batchClient) (rest : List batchClient)
    (pre : List Observation) (o : Observation) (post : List Observation)
    (hq : gt.orderedClients = c :: rest)
    (hpath : e = false ∨ gt.rpcContext.GetLocalInternalServerForAddr c.remoteAddr = none)
    (hs : net.script c.conn = pre ++ o :: post) (hpre : ∀ y ∈ pre, y.ends = false)
    (hstate : o.state = ConnectivityState.Shutdown) (herr : o.err = none) :
    ∃ gt1 eff g, gt.SendNext e net = .ok (gt1, eff) ∧ eff.spawned = some g ∧
      eff.sent = [] ∧ eff.localCalls = [] ∧
      g.sent = [⟨none, some
        ⟨"rpc to " ++ c.remoteAddr ++ " failed as client connection was closed"⟩⟩] ∧
      g.rpcCalls = [] ∧ g.waits = pre.length ∧ g.finished = true := by
  have hstep : loopStep c.remoteAddr o =
      some (LoopExit.failed ⟨none, some (closedError c.remoteAddr)⟩) := by
    simp [loopStep, hstate, herr]
  refine ⟨_, _, _, sendNext_remote e net gt c rest hq hpath, rfl, rfl, rfl, ?_⟩
  rw [remoteAttempt_skip net c c.remoteAddr pre o post _ hs hpre hstep]
  exact ⟨rfl, rfl, rfl, rfl⟩

/-- C8, on a connection that is connecting, then shut down. -/
theorem sendNext_shutdown_witness :
    ∃ gt1 eff g, demoTransport.SendNext true demoClosedNetwork = .ok (gt1, eff) ∧
      eff.spawned = some g ∧ eff.sent = [] ∧ eff.localCalls = [] ∧
      g.sent = [⟨none, some
        ⟨"rpc to " ++ demoClient.remoteAddr ++ " failed as client connection was closed"⟩⟩] ∧
      g.rpcCalls = [] ∧ g.waits = [(⟨.Connecting, none⟩ : Observation)].length ∧
      g.finished = true :=
  sendNext_shutdown true demoClosedNetwork demoTransport demoClient
    [⟨"b", 1, ⟨1⟩, ⟨2, 7⟩⟩] [⟨.Connecting, none⟩] ⟨.Shutdown, none⟩ [⟨.Ready, none⟩]
    rfl (Or.inr rfl) rfl (by decide) rfl rfl

theorem loopStep_ready (addr : String) (o : Observation)
    (h : loopStep addr o = some LoopExit.ready) : o.state = ConnectivityState.Ready := by
  obtain ⟨st, err⟩ := o
  cases st <;> cases err <;> simp [loopStep] at h ⊢

theorem loopStep_none (addr : String) (o : Observation) (h : loopStep addr o = none) :
    o.ends = false := by
  obtain ⟨st, err⟩ := o
  cases st <;> cases err <;> simp [loopStep] at h <;> rfl

/-- The loop leaves through its condition only at an observation of `Ready`
reached through observations that do not end the loop. -/
theorem waitForReady_ready (addr : String) :
    ∀ (rest : List Observation) (o : Observation) (n : Nat),
      waitForReady addr o rest = (n, LoopExit.ready) →
      ∃ pre o1 post, o :: rest = pre ++ o1 :: post ∧ (∀ y ∈ pre, y.ends = false) ∧
        o1.state = ConnectivityState.Ready ∧ n = pre.length
  | [], o, n, h => by
    cases hl : loopStep addr o with
    | none => simp [waitForReady, hl] at h
    | some x =>
      simp only [waitForReady, hl, Prod.mk.injEq] at h
      obtain ⟨rfl, rfl⟩ := h
      exact ⟨[], o, [], rfl, by simp, loopStep_ready addr o hl, rfl⟩
  | o2 :: rest, o, n, h => by
    cases hl : loopStep addr o with
    | none =>
      simp only [waitForReady, hl, Prod.mk.injEq] at h
      obtain ⟨hn, hx⟩ := h
      obtain ⟨pre, o1, post, hsplit, hpre, hst, hlen⟩ :=
        waitForReady_ready addr rest o2 (waitForReady addr o2 rest).1 (by rw [← hx])
      refine ⟨o :: pre, o1, post, by rw [hsplit]; rfl, ?_, hst, ?_⟩
      · intro y hy
        rcases List.mem_cons.mp hy with rfl | hy
        · exact loopStep_none addr y hl
        · exact hpre y hy
      · rw [← hn, hlen]
        rfl
    | some x =>
      simp only [waitForReady, hl, Prod.mk.injEq] at h
      obtain ⟨rfl, rfl⟩ := h
      exact ⟨[], o, o2 :: rest, rfl, by simp, loopStep_ready addr o hl, rfl⟩

/-- C9: on the remote path the goroutine issues the remote call at most once
and only with the stub and request copy of the dequeued binding; when it
issues the call, the loop has reached an observation of `Ready` through
observations that do not end the loop, and the value delivered is the pair
the call returned; conversely whenever the loop reaches an observation of
`Ready` the call is issued once and its pair delivered, with as many waits as
observations skipped, so with no wait when `State()` already reports
`Ready`. -/
theorem sendNext_remote_call (e : Bool) (net : Network) (gt : grpcTransport)
    (c : batchClient) (rest : List batchClient)
    (hq : gt.orderedClients = c :: rest)
    (hpath : e = false ∨ gt.rpcContext.GetLocalInternalServerForAddr c.remoteAddr = none) :
    ∃ gt1 eff g, gt.SendNext e net = .ok (gt1, eff) ∧ eff.spawned = some g ∧
      eff.sent = [] ∧ eff.localCalls = [] ∧
      (g.rpcCalls = [] ∨ g.rpcCalls = [(c.client, c.args)]) ∧
      (g.rpcCalls ≠ [] →
        ∃ pre o post, net.script c.conn = pre ++ o :: post ∧ (∀ y ∈ pre, y.ends = false) ∧
          o.state = ConnectivityState.Ready ∧ g.waits = pre.length ∧
          g.sent = [⟨(net.Batch c.client c.args).1, (net.Batch c.client c.args).2⟩]) ∧
      (∀ pre o post, net.script c.conn = pre ++ o :: post → (∀ y ∈ pre, y.ends = false) →
        o.state = ConnectivityState.Ready →
        g = ⟨pre.length, [(c.client, c.args)],
          [⟨(net.Batch c.client c.args).1, (net.Batch c.client c.args).2⟩], true⟩) ∧
      ((net.State c.conn).state = ConnectivityState.Ready →
        g.waits = 0 ∧ g.rpcCalls = [(c.client, c.args)] ∧
          g.sent = [⟨(net.Batch c.client c.args).1, (net.Batch c.client c.args).2⟩]) := by
  have hskip : ∀ pre o post, net.script c.conn = pre ++ o :: post →
      (∀ y ∈ pre, y.ends = false) → o.state = ConnectivityState.Ready →
      remoteAttempt net c c.remoteAddr = ⟨pre.length, [(c.client, c.args)],
        [⟨(net.Batch c.client c.args).1, (net.Batch c.client c.args).2⟩], true⟩ := by
    intro pre o post hs hpre hst
    have hstep : loopStep c.remoteAddr o = some LoopExit.ready := by simp [loopStep, hst]
    rw [remoteAttempt_skip net c c.remoteAddr pre o post _ hs hpre hstep]
  refine ⟨_, _, _, sendNext_remote e net gt c rest hq hpath, rfl, rfl, rfl,
    remoteAttempt_rpcCalls net c c.remoteAddr, ?_, hskip, ?_⟩
  · intro hne
    rcases hw : waitForReady c.remoteAddr (net.State c.conn) (net.changes c.conn) with ⟨n, x⟩
    cases x with
    | ready =>
      obtain ⟨pre, o, post, hsplit, hpre, hst, _⟩ :=
        waitForReady_ready c.remoteAddr _ _ n hw
      refine ⟨pre, o, post, hsplit, hpre, hst, ?_⟩
      rw [hskip pre o post hsplit hpre hst]
      exact ⟨rfl, rfl⟩
    | failed call =>
      exact absurd (by simp [remoteAttempt, hw]) hne
    | blocked =>
      exact absurd (by simp [remoteAttempt, hw]) hne
  · intro hst
    rw [hskip [] (net.State c.conn) (net.changes c.conn) rfl (by simp) hst]
    exact ⟨rfl, rfl, rfl⟩

/-- C9, on a connection that is idle, connecting, then ready. -/
theorem sendNext_remote_call_witness :
    ∃ gt1 eff g, demoTransport.SendNext true demoSlowNetwork = .ok (gt1, eff) ∧
      eff.spawned = some g ∧ g = ⟨2, [(⟨0⟩, ⟨1, 7⟩)], [⟨some ⟨none, 5⟩, none⟩], true⟩ := by
  obtain ⟨gt1, eff, g, h1, h2, _, _, _, _, h3, _⟩ :=
    sendNext_remote_call true demoSlowNetwork demoTransport demoClient
      [⟨"b", 1, ⟨1⟩, ⟨2, 7⟩⟩] rfl (Or.inr rfl)
  exact ⟨gt1, eff, g, h1, h2,
    h3 [⟨.Idle, none⟩, ⟨.Connecting, none⟩] ⟨.Ready, none⟩ [] rfl (by decide) rfl⟩

/-! ## The local fast path -/

/-- C10: when the address of the dequeued binding has an in-process server
and `enableLocalCalls` is true, `SendNext` starts no goroutine (so observes no
connection state), hands the request copy of the binding to the local handler
once and sends the pair the handler returns on `done` before it returns, so a
handler returning reply `r` and no error yields the outcome with reply `r` and
no error; when the flag is false or the address has no in-process server, the
local handler is not invoked, nothing is sent before the return, and the
goroutine of the remote path is started. -/
theorem sendNext_local_fast_path (e : Bool) (net : Network) (gt : grpcTransport)
    (c : batchClient) (rest : List batchClient) (hq : gt.orderedClients = c :: rest) :
    (∀ srv, e = true → gt.rpcContext.GetLocalInternalServerForAddr c.remoteAddr = some srv →
      ∃ gt1 eff, gt.SendNext e net = .ok (gt1, eff) ∧ eff.spawned = none ∧
        eff.localCalls = [c.args] ∧
        eff.sent = [⟨(srv c.args).1, (srv c.args).2⟩] ∧
        eff.delivered = [⟨(srv c.args).1, (srv c.args).2⟩] ∧
        (∀ r, srv c.args = (some r, none) → eff.delivered = [⟨some r, none⟩])) ∧
    ((e = false ∨ gt.rpcContext.GetLocalInternalServerForAddr c.remoteAddr = none) →
      ∃ gt1 eff, gt.SendNext e net = .ok (gt1, eff) ∧ eff.localCalls = [] ∧ eff.sent = [] ∧
        eff.spawned = some (remoteAttempt net c c.remoteAddr)) := by
  refine ⟨?_, ?_⟩
  · intro srv he hsrv
    refine ⟨_, _, sendNext_local e net gt c rest srv hq he hsrv, rfl, rfl, rfl, rfl, ?_⟩
    intro r hr
    simp [SendEffects.delivered, hr]
  · intro hpath
    exact ⟨_, _, sendNext_remote e net gt c rest hq hpath, rfl, rfl, rfl⟩

/-- C10, on a transport whose first binding is served in-process, with the
flag on and with the flag off. -/
theorem sendNext_local_fast_path_witness :
    (∃ gt1 eff,
      grpcTransport.SendNext true demoNetwork ⟨⟨orderStable, 0⟩, demoLocalContext, [demoClient]⟩ =
        .ok (gt1, eff) ∧ eff.spawned = none ∧ eff.localCalls = [⟨1, 7⟩] ∧
      eff.delivered = [⟨some ⟨none, 9⟩, none⟩]) ∧
    (∃ gt1 eff,
      grpcTransport.SendNext false demoNetwork ⟨⟨orderStable, 0⟩, demoLocalContext, [demoClient]⟩ =
        .ok (gt1, eff) ∧ eff.localCalls = [] ∧ eff.sent = [] ∧
      eff.spawned = some (remoteAttempt demoNetwork demoClient demoClient.remoteAddr)) := by
  refine ⟨?_, ?_⟩
  · obtain ⟨gt1, eff, h1, h2, h3, _, _, h4⟩ :=
      (sendNext_local_fast_path true demoNetwork
        ⟨⟨orderStable, 0⟩, demoLocalContext, [demoClient]⟩ demoClient [] rfl).1
        (fun _ => (some ⟨none, 9⟩, none)) rfl rfl
    exact ⟨gt1, eff, h1, h2, h3, h4 ⟨none, 9⟩ rfl⟩
  · exact (sendNext_local_fast_path false demoNetwork
      ⟨⟨orderStable, 0⟩, demoLocalContext, [demoClient]⟩ demoClient [] rfl).2 (Or.inl rfl)

/-! ## The factory: connection acquisition and bindings -/

/-- The dial loop on a list whose first failing candidate is `r`: it stops
there with the error of that dial, having dialed the candidates up to `r`. -/
theorem dialClients_fail (ctx : RpcContext) (args : BatchRequest) (r : ReplicaInfo)
    (post : List ReplicaInfo) (e : GoError) (hr : ctx.GRPCDial r.Address = .error e) :
    ∀ (pre : List ReplicaInfo) (acc : List batchClient),
      (∀ x ∈ pre, ∃ conn, ctx.GRPCDial x.Address = .ok conn) →
      dialClients ctx args (pre ++ r :: post) acc =
        ((pre ++ [r]).map ReplicaInfo.Address, .error e)
  | [], acc, _ => by simp [dialClients, hr]
  | x :: pre, acc, hpre => by
    obtain ⟨conn, hx⟩ := hpre x (List.mem_cons_self _ _)
    have ih := dialClients_fail ctx args r post e hr pre
      (acc ++ [⟨x.Address, conn, ⟨conn⟩, (stampReplica args x).2⟩])
      (fun y hy => hpre y (List.mem_cons_of_mem _ hy))
    simp only [List.cons_append, dialClients, hx, stampReplica, List.append_eq] at ih ⊢
    rw [ih]
    simp

/-- The dial loop, when it ends without an error: every candidate was dialed,
in order, and one binding per candidate was appended, carrying the address of
the candidate, the connection dialed for it, the stub made from that
connection, and the template with the replica descriptor of the candidate
stamped in. -/
theorem dialClients_ok (ctx : RpcContext) (args : BatchRequest) :
    ∀ (replicas : List ReplicaInfo) (acc : List batchClient) (log : List String)
      (clients : List batchClient),
      dialClients ctx args replicas acc = (log, .ok clients) →
      log = replicas.map ReplicaInfo.Address ∧
      (∀ x ∈ replicas, ∃ conn, ctx.GRPCDial x.Address = .ok conn) ∧
      ∃ built, clients = acc ++ built ∧
        built.map (fun c => (c.remoteAddr, c.args)) =
          replicas.map (fun r => (r.Address, (⟨r.Replica, args.body⟩ : BatchRequest))) ∧
        ∀ c ∈ built, ctx.GRPCDial c.remoteAddr = .ok c.conn ∧ c.client = ⟨c.conn⟩
  | [], acc, log, clients, h => by
    simp only [dialClients, Prod.mk.injEq, Except.ok.injEq] at h
    obtain ⟨rfl, rfl⟩ := h
    exact ⟨rfl, by simp, [], by simp, rfl, by simp⟩
  | x :: rest, acc, log, clients, h => by
    cases hx : ctx.GRPCDial x.Address with
    | error err => simp [dialClients, hx] at h
    | ok conn =>
      simp only [dialClients, hx, stampReplica, Prod.mk.injEq] at h
      obtain ⟨hlog, hres⟩ := h
      obtain ⟨h1, h2, built, h3, h4, h5⟩ := dialClients_ok ctx args rest
        (acc ++ [⟨x.Address, conn, ⟨conn⟩, ⟨x.Replica, args.body⟩⟩]) _ clients
        (Prod.ext rfl hres)
      refine ⟨?_, ?_, ⟨x.Address, conn, ⟨conn⟩, ⟨x.Replica, args.body⟩⟩ :: built, ?_, ?_, ?_⟩
      · rw [← hlog]
        exact congrArg (List.cons x.Address) h1
      · intro y hy
        rcases List.mem_cons.mp hy with rfl | hy
        · exact ⟨conn, hx⟩
        · exact h2 y hy
      · rw [h3]
        simp
      · simp [h4]
      · intro c hc
        rcases List.mem_cons.mp hc with rfl | hc
        · exact ⟨hx, rfl⟩
        · exact h5 c hc

/-- What the factory returns is decided by the dial loop, the health split
and the ordering switch, in this order. -/
theorem grpcTransportFactory_ok
    (splitHealthy : List batchClient → Except GoError (List batchClient × Int))
    (shuffleClients : Rng → List batchClient → List batchClient × Rng) (rng : Rng)
    (opts : SendOptions) (ctx : RpcContext) (replicas : List ReplicaInfo)
    (args : BatchRequest) (gt : grpcTransport)
    (h : (grpcTransportFactory splitHealthy shuffleClients rng opts ctx replicas
      args).result = .ok gt) :
    ∃ clients cs n, dialClients ctx args replicas [] =
        (replicas.map ReplicaInfo.Address, .ok clients) ∧
      splitHealthy clients = .ok (cs, n) ∧
      orderClients shuffleClients rng opts.Ordering cs n = .ok gt.orderedClients ∧
      gt.opts = opts := by
  unfold grpcTransportFactory at h
  rcases hd : dialClients ctx args replicas [] with ⟨dialed, _ | clients⟩
  · rw [hd] at h
    cases h
  · rw [hd] at h
    simp only at h
    rcases hs : splitHealthy clients with _ | ⟨cs, n⟩
    · rw [hs] at h
      cases h
    · rw [hs] at h
      simp only at h
      rcases ho : orderClients shuffleClients rng opts.Ordering cs n with out | err | what
      · rw [ho] at h
        simp only [Exec.ok.injEq] at h
        subst h
        obtain ⟨hlog, _⟩ := dialClients_ok ctx args replicas [] dialed clients hd
        subst hlog
        exact ⟨clients, cs, n, rfl, hs, ho, rfl⟩
      · rw [ho] at h
        cases h
      · rw [ho] at h
        cases h

theorem grpcTransportFactory_dialed
    (splitHealthy : List batchClient → Except GoError (List batchClient × Int))
    (shuffleClients : Rng → List batchClient → List batchClient × Rng) (rng : Rng)
    (opts : SendOptions) (ctx : RpcContext) (replicas : List ReplicaInfo)
    (args : BatchRequest) :
    (grpcTransportFactory splitHealthy shuffleClients rng opts ctx replicas args).dialed =
      (dialClients ctx args replicas []).1 := by
  unfold grpcTransportFactory
  rcases dialClients ctx args replicas [] with ⟨dialed, _ | clients⟩
  · rfl
  · simp only
    rcases splitHealthy clients with _ | ⟨cs, n⟩
    · rfl
    · simp only
      rcases orderClients shuffleClients rng opts.Ordering cs n with out | err | what <;> rfl

theorem grpcTransportFactory_dial_error
    (splitHealthy : List batchClient → Except GoError (List batchClient × Int))
    (shuffleClients : Rng → List batchClient → List batchClient × Rng) (rng : Rng)
    (opts : SendOptions) (ctx : RpcContext) (replicas : List ReplicaInfo)
    (args : BatchRequest) (log : List String) (e : GoError)
    (h : dialClients ctx args replicas [] = (log, .error e)) :
    (grpcTransportFactory splitHealthy shuffleClients rng opts ctx replicas args).result =
      .error e := by
  unfold grpcTransportFactory
  rw [h]

theorem grpcTransportFactory_ordered
    (splitHealthy : List batchClient → Except GoError (List batchClient × Int))
    (shuffleClients : Rng → List batchClient → List batchClient × Rng) (rng : Rng)
    (opts : SendOptions) (ctx : RpcContext) (replicas : List ReplicaInfo)
    (args : BatchRequest) (clients cs out : List batchClient) (n : Int)
    (hdial : (dialClients ctx args replicas []).2 = .ok clients)
    (hsplit : splitHealthy clients = .ok (cs, n))
    (hout : orderClients shuffleClients rng opts.Ordering cs n = .ok out) :
    (grpcTransportFactory splitHealthy shuffleClients rng opts ctx replicas args).result =
      .ok ⟨opts, ctx, out⟩ := by
  unfold grpcTransportFactory
  rcases hd : dialClients ctx args replicas [] with ⟨dialed, r⟩
  rw [hd] at hdial
  simp only at hdial
  subst hdial
  simp only [hsplit, hout]

/-- C11 (as stated, refuted): on a context whose dials all fail with the same
error, the factory returns that very error for the candidate at address `"a"`
and for the candidate at address `"b"`: the error it returns is the dial error
as it is and does not tell the offending address. -/
theorem grpcTransportFactory_error_not_address_specific :
    (grpcTransportFactory demoSplit demoShuffle 0 ⟨orderStable, 0⟩ demoDownContext
      [⟨1, "a"⟩] ⟨0, 7⟩).result = .error ⟨"connection refused"⟩ ∧
    (grpcTransportFactory demoSplit demoShuffle 0 ⟨orderStable, 0⟩ demoDownContext
      [⟨2, "b"⟩] ⟨0, 7⟩).result = .error ⟨"connection refused"⟩ ∧
    "a" ≠ "b" :=
  ⟨rfl, rfl, by decide⟩

/-- C11 (amended): when the dial of a candidate fails and the dials of all
candidates before it succeed, the factory returns the error of that dial as it
is, with no transport, having dialed the candidates up to that one and none
after it; when it returns a transport it returns no error, every candidate was
dialed with success and the health split succeeded; and whenever it returns,
exactly one of transport and error is present. -/
theorem grpcTransportFactory_transport_or_error
    (splitHealthy : List batchClient → Except GoError (List batchClient × Int))
    (shuffleClients : Rng → List batchClient → List batchClient × Rng) (rng : Rng)
    (opts : SendOptions) (ctx : RpcContext) (replicas : List ReplicaInfo)
    (args : BatchRequest) :
    (∀ pre r post e, replicas = pre ++ r :: post →
      (∀ x ∈ pre, ∃ conn, ctx.GRPCDial x.Address = .ok conn) →
      ctx.GRPCDial r.Address = .error e →
      (grpcTransportFactory splitHealthy shuffleClients rng opts ctx replicas args).result =
          .error e ∧
        (grpcTransportFactory splitHealthy shuffleClients rng opts ctx replicas
          args).transport = none ∧
        (grpcTransportFactory splitHealthy shuffleClients rng opts ctx replicas args).err =
          some e ∧
        (grpcTransportFactory splitHealthy shuffleClients rng opts ctx replicas args).dialed =
          (pre ++ [r]).map ReplicaInfo.Address) ∧
    (∀ gt,
      (grpcTransportFactory splitHealthy shuffleClients rng opts ctx replicas args).result =
        .ok gt →
      (grpcTransportFactory splitHealthy shuffleClients rng opts ctx replicas
          args).transport = some gt ∧
        (grpcTransportFactory splitHealthy shuffleClients rng opts ctx replicas args).err =
          none ∧
        (grpcTransportFactory splitHealthy shuffleClients rng opts ctx replicas args).dialed =
          replicas.map ReplicaInfo.Address ∧
        (∀ x ∈ replicas, ∃ conn, ctx.GRPCDial x.Address = .ok conn) ∧
        ∃ clients cs n, (dialClients ctx args replicas []).2 = .ok clients ∧
          splitHealthy clients = .ok (cs, n)) ∧
    ((∃ what,
        (grpcTransportFactory splitHealthy shuffleClients rng opts ctx replicas args).result =
          .panic what) ∨
      exactlyOne
        (grpcTransportFactory splitHealthy shuffleClients rng opts ctx replicas args).transport
        (grpcTransportFactory splitHealthy shuffleClients rng opts ctx replicas args).err =
        true) := by
  refine ⟨?_, ?_, ?_⟩
  · intro pre r post e hrep hpre hr
    subst hrep
    have hd := dialClients_fail ctx args r post e hr pre [] hpre
    have hres := grpcTransportFactory_dial_error splitHealthy shuffleClients rng opts ctx
      (pre ++ r :: post) args _ e hd
    refine ⟨hres, ?_, ?_, ?_⟩
    · simp [FactoryRun.transport, hres]
    · simp [FactoryRun.err, hres]
    · rw [grpcTransportFactory_dialed, hd]
  · intro gt hgt
    obtain ⟨clients, cs, n, hd, hs, _, _⟩ :=
      grpcTransportFactory_ok splitHealthy shuffleClients rng opts ctx replicas args gt hgt
    obtain ⟨_, hall, _⟩ := dialClients_ok ctx args replicas [] _ clients hd
    refine ⟨?_, ?_, ?_, hall, clients, cs, n, by rw [hd], hs⟩
    · simp [FactoryRun.transport, hgt]
    · simp [FactoryRun.err, hgt]
    · rw [grpcTransportFactory_dialed, hd]
  · rcases hres : (grpcTransportFactory splitHealthy shuffleClients rng opts ctx replicas
      args).result with gt | e | what
    · right
      simp [FactoryRun.transport, FactoryRun.err, hres, exactlyOne]
    · right
      simp [FactoryRun.transport, FactoryRun.err, hres, exactlyOne]
    · left
      exact ⟨what, rfl⟩

/-- C11 (amended), on three candidates of which the second fails to dial, and
on three candidates that all dial. -/
theorem grpcTransportFactory_transport_or_error_witness :
    ((grpcTransportFactory demoSplit demoShuffle 0 ⟨orderStable, 0⟩ demoHalfContext
        demoReplicas ⟨0, 7⟩).result = .error ⟨"connection refused"⟩ ∧
      (grpcTransportFactory demoSplit demoShuffle 0 ⟨orderStable, 0⟩ demoHalfContext
        demoReplicas ⟨0, 7⟩).dialed = ["a", "b"]) ∧
    ((grpcTransportFactory demoSplit demoShuffle 0 ⟨orderStable, 0⟩ demoContext
        demoReplicas ⟨0, 7⟩).err = none ∧
      (grpcTransportFactory demoSplit demoShuffle 0 ⟨orderStable, 0⟩ demoContext
        demoReplicas ⟨0, 7⟩).dialed = ["a", "b", "c"]) := by
  refine ⟨?_, ?_⟩
  · obtain ⟨h1, _, _, h2⟩ :=
      (grpcTransportFactory_transport_or_error demoSplit demoShuffle 0 ⟨orderStable, 0⟩
        demoHalfContext demoReplicas ⟨0, 7⟩).1 [⟨1, "a"⟩] ⟨2, "b"⟩ [⟨3, "c"⟩]
        ⟨"connection refused"⟩ rfl (by intro x hx; exact ⟨0, by simp at hx; subst hx; rfl⟩) rfl
    exact ⟨h1, h2⟩
  · obtain ⟨_, h1, h2, _⟩ :=
      (grpcTransportFactory_transport_or_error demoSplit demoShuffle 0 ⟨orderStable, 0⟩
        demoContext demoReplicas ⟨0, 7⟩).2.1
        ⟨⟨orderStable, 0⟩, demoContext,
          [⟨"a", 0, ⟨0⟩, ⟨1, 7⟩⟩, ⟨"c", 2, ⟨2⟩, ⟨3, 7⟩⟩, ⟨"b", 1, ⟨1⟩, ⟨2, 7⟩⟩]⟩ rfl
    exact ⟨h1, h2⟩

/-- C12: a factory call that returns a transport has built, in its dial loop,
exactly one binding per candidate, in the order of the candidates: binding `i`
has the address of candidate `i` and a request with the replica descriptor of
candidate `i` and every other field as in the template; the statements that
build a copy leave the template as it was. -/
theorem grpcTransportFactory_bindings
    (splitHealthy : List batchClient → Except GoError (List batchClient × Int))
    (shuffleClients : Rng → List batchClient → List batchClient × Rng) (rng : Rng)
    (opts : SendOptions) (ctx : RpcContext) (replicas : List ReplicaInfo)
    (args : BatchRequest) (gt : grpcTransport)
    (hgt : (grpcTransportFactory splitHealthy shuffleClients rng opts ctx replicas
      args).result = .ok gt) :
    ∃ clients, (dialClients ctx args replicas []).2 = .ok clients ∧
      clients.length = replicas.length ∧
      (∀ i (h1 : i < clients.length) (h2 : i < replicas.length),
        clients[i].remoteAddr = replicas[i].Address ∧
        clients[i].args.Replica = replicas[i].Replica ∧
        clients[i].args.body = args.body) ∧
      (∀ r, (stampReplica args r).1 = args ∧
        (stampReplica args r).2 = ⟨r.Replica, args.body⟩) := by
  obtain ⟨clients, cs, n, hd, _, _, _⟩ :=
    grpcTransportFactory_ok splitHealthy shuffleClients rng opts ctx replicas args gt hgt
  obtain ⟨_, _, built, hb, hmap, _⟩ := dialClients_ok ctx args replicas [] _ clients hd
  rw [List.nil_append] at hb
  subst hb
  have hlen : clients.length = replicas.length := by
    have := congrArg List.length hmap
    simpa using this
  refine ⟨clients, by rw [hd], hlen, ?_, fun r => ⟨rfl, rfl⟩⟩
  intro i h1 h2
  have hi := List.getElem_of_eq hmap (by simpa using h1)
  simp only [List.getElem_map, Prod.mk.injEq] at hi
  obtain ⟨ha, hr⟩ := hi
  rw [ha, hr]
  exact ⟨rfl, rfl, rfl⟩

/-- C12, on three candidates and the template with body 7. -/
theorem grpcTransportFactory_bindings_witness :
    ∃ clients, (dialClients demoContext ⟨0, 7⟩ demoReplicas []).2 = .ok clients ∧
      clients.length = demoReplicas.length ∧
      (∀ i (h1 : i < clients.length) (h2 : i < demoReplicas.length),
        clients[i].remoteAddr = demoReplicas[i].Address ∧
        clients[i].args.Replica = demoReplicas[i].Replica ∧
        clients[i].args.body = (⟨0, 7⟩ : BatchRequest).body) ∧
      (∀ r, (stampReplica ⟨0, 7⟩ r).1 = ⟨0, 7⟩ ∧
        (stampReplica ⟨0, 7⟩ r).2 = ⟨r.Replica, (⟨0, 7⟩ : BatchRequest).body⟩) :=
  grpcTransportFactory_bindings demoSplit demoShuffle 0 ⟨orderStable, 0⟩ demoContext
    demoReplicas ⟨0, 7⟩
    ⟨⟨orderStable, 0⟩, demoContext,
      [⟨"a", 0, ⟨0⟩, ⟨1, 7⟩⟩, ⟨"c", 2, ⟨2⟩, ⟨3, 7⟩⟩, ⟨"b", 1, ⟨1⟩, ⟨2, 7⟩⟩]⟩ rfl

/-! ## The sender transport: the embedded error -/

/-- C13: `senderTransport.SendNext` panics exactly when the sender returns a
non-nil reply whose `Error` is already set; when it does not, it delivers one
`BatchCall` whose reply is the reply of the sender (an empty one when that is
nil) with `Error` set to the error of the sender, and whose own `Err` is
absent; it never returns an error. -/
theorem senderTransport_sendNext_panics_iff (s : senderTransport) :
    ((∃ what, s.SendNext = .panic what) ↔
      ∃ b, (s.sender s.args).1 = some b ∧ b.Error ≠ none) ∧
    ((∀ b, (s.sender s.args).1 = some b → b.Error = none) →
      ∃ s1, s.SendNext = .ok (s1, [⟨some ⟨(s.sender s.args).2,
        (match (s.sender s.args).1 with
          | none => 0
          | some b => b.body)⟩, none⟩])) ∧
    (∀ err, s.SendNext ≠ .error err) := by
  refine ⟨⟨?_, ?_⟩, ?_, ?_⟩
  · rintro ⟨what, hp⟩
    by_contra hno
    have hall : ∀ b, (s.sender s.args).1 = some b → b.Error = none := by
      intro b hb
      by_contra hne
      exact hno ⟨b, hb, hne⟩
    rw [senderSendNext_ok s hall] at hp
    cases hp
  · rintro ⟨b, hb, hne⟩
    refine ⟨"error unexpectedly set", ?_⟩
    unfold senderTransport.SendNext
    rcases hr : s.sender s.args with ⟨br, pErr⟩
    rw [hr] at hb
    simp only at hb
    subst hb
    simp [hne]
  · intro hall
    exact ⟨s, senderSendNext_ok s hall⟩
  · intro err herr
    unfold senderTransport.SendNext at herr
    rcases hr : s.sender s.args with ⟨br, pErr⟩
    rw [hr] at herr
    simp only at herr
    split at herr <;> cases herr

/-- C13, on a sender returning a clean reply and an error (one outcome), and
on a sender returning a reply with an embedded error (panic). -/
theorem senderTransport_sendNext_panics_iff_witness :
    (∃ s1, demoSender.SendNext = .ok (s1, [⟨some ⟨some ⟨"boom"⟩, 4⟩, none⟩])) ∧
    (∃ what, demoBadSender.SendNext = .panic what) :=
  ⟨(senderTransport_sendNext_panics_iff demoSender).2.1 (by intro b h; cases h; rfl),
    (senderTransport_sendNext_panics_iff demoBadSender).1.2
      ⟨⟨some ⟨"inner"⟩, 4⟩, rfl, by decide⟩⟩

/-! ## The gRPC transport: sending when exhausted -/

/-- C14: `grpcTransport.SendNext` panics, at the dequeue and so with no
effect, exactly when `IsExhausted` is true; when `IsExhausted` is false it
returns; it never returns an error. -/
theorem grpcTransport_sendNext_panics_iff (e : Bool) (net : Network) (gt : grpcTransport) :
    ((∃ what, gt.SendNext e net = .panic what) ↔ gt.IsExhausted.1 = true) ∧
    (gt.IsExhausted.1 = false → ∃ gt1 eff, gt.SendNext e net = .ok (gt1, eff)) ∧
    (∀ err, gt.SendNext e net ≠ .error err) := by
  obtain ⟨opts, ctx, cs⟩ := gt
  cases cs with
  | nil =>
    refine ⟨⟨fun _ => rfl, fun _ => ⟨_, sendNext_nil e net opts ctx⟩⟩, ?_, ?_⟩
    · intro h
      simp [grpcTransport.IsExhausted] at h
    · intro err h
      rw [sendNext_nil] at h
      cases h
  | cons c rest =>
    refine ⟨⟨?_, ?_⟩, fun _ => ⟨_, _, sendNext_cons e net opts ctx c rest⟩, ?_⟩
    · rintro ⟨what, h⟩
      rw [sendNext_cons] at h
      cases h
    · intro h
      simp [grpcTransport.IsExhausted] at h
    · intro err h
      rw [sendNext_cons] at h
      cases h

/-- C14, on a transport with two bindings and on one with none. -/
theorem grpcTransport_sendNext_panics_iff_witness :
    (∃ gt1 eff, demoTransport.SendNext true demoNetwork = .ok (gt1, eff)) ∧
    (∃ what, grpcTransport.SendNext true demoNetwork ⟨⟨orderStable, 0⟩, demoContext, []⟩ =
      .panic what) :=
  ⟨(grpcTransport_sendNext_panics_iff true demoNetwork demoTransport).2.1 rfl,
    (grpcTransport_sendNext_panics_iff true demoNetwork
      ⟨⟨orderStable, 0⟩, demoContext, []⟩).1.2 rfl⟩

/-! ## The factory: the ordering switch -/

/-- C19: when the dial loop and the health split succeed, a factory call with
an ordering that is neither `orderStable` nor `orderRandom` returns, with no
error, a transport with an empty queue, exhausted from the start, however many
candidates there are; with `orderStable`, and with `orderRandom` when
`nHealthy` is within the slice and `shuffleClients` only permutes, it returns
a transport whose queue holds exactly the bindings built, one per candidate,
provided `splitHealthy` only rearranges the slice. -/
theorem grpcTransportFactory_ordering_switch
    (splitHealthy : List batchClient → Except GoError (List batchClient × Int))
    (shuffleClients : Rng → List batchClient → List batchClient × Rng) (rng : Rng)
    (opts : SendOptions) (ctx : RpcContext) (replicas : List ReplicaInfo)
    (args : BatchRequest) (clients cs : List batchClient) (n : Int)
    (hdial : (dialClients ctx args replicas []).2 = .ok clients)
    (hsplit : splitHealthy clients = .ok (cs, n)) :
    ((opts.Ordering ≠ orderStable ∧ opts.Ordering ≠ orderRandom) →
      ∃ gt, (grpcTransportFactory splitHealthy shuffleClients rng opts ctx replicas
          args).result = .ok gt ∧
        gt.orderedClients = [] ∧ gt.IsExhausted.1 = true) ∧
    (opts.Ordering = orderStable → cs.Perm clients →
      ∃ gt, (grpcTransportFactory splitHealthy shuffleClients rng opts ctx replicas
          args).result = .ok gt ∧
        gt.orderedClients.length = replicas.length ∧ gt.orderedClients.Perm clients) ∧
    (opts.Ordering = orderRandom → cs.Perm clients → (0 ≤ n ∧ n ≤ (cs.length : Int)) →
      (∀ g l, (shuffleClients g l).1.Perm l) →
      ∃ gt, (grpcTransportFactory splitHealthy shuffleClients rng opts ctx replicas
          args).result = .ok gt ∧
        gt.orderedClients.length = replicas.length ∧ gt.orderedClients.Perm clients) := by
  have hlen : clients.length = replicas.length := by
    rcases hd : dialClients ctx args replicas [] with ⟨log, r⟩
    rw [hd] at hdial
    simp only at hdial
    subst hdial
    obtain ⟨_, _, built, hb, hmap, _⟩ := dialClients_ok ctx args replicas [] log clients hd
    rw [List.nil_append] at hb
    subst hb
    have := congrArg List.length hmap
    simpa using this
  refine ⟨?_, ?_, ?_⟩
  · rintro ⟨h1, h2⟩
    have ho : orderClients shuffleClients rng opts.Ordering cs n = .ok [] := by
      simp [orderClients, h1, h2]
    exact ⟨_, grpcTransportFactory_ordered splitHealthy shuffleClients rng opts ctx replicas
      args clients cs [] n hdial hsplit ho, rfl, rfl⟩
  · intro h1 hperm
    have ho : orderClients shuffleClients rng opts.Ordering cs n = .ok cs := by
      simp [orderClients, h1]
    exact ⟨_, grpcTransportFactory_ordered splitHealthy shuffleClients rng opts ctx replicas
      args clients cs cs n hdial hsplit ho, by rw [← hlen]; exact hperm.length_eq, hperm⟩
  · intro h1 hperm hn hshuffle
    have hne : orderRandom ≠ orderStable := by decide
    have hrange : ¬(n < 0 ∨ (cs.length : Int) < n) := by omega
    have ho : orderClients shuffleClients rng opts.Ordering cs n =
        .ok ((shuffleClients rng (cs.take n.toNat)).1 ++
          (shuffleClients (shuffleClients rng (cs.take n.toNat)).2 (cs.drop n.toNat)).1) := by
      simp only [orderClients, h1, if_neg hne, if_true, if_neg hrange]
    have hp : ((shuffleClients rng (cs.take n.toNat)).1 ++
        (shuffleClients (shuffleClients rng (cs.take n.toNat)).2 (cs.drop n.toNat)).1).Perm
        cs := by
      have := List.Perm.append (hshuffle rng (cs.take n.toNat))
        (hshuffle (shuffleClients rng (cs.take n.toNat)).2 (cs.drop n.toNat))
      rwa [List.take_append_drop] at this
    exact ⟨_, grpcTransportFactory_ordered splitHealthy shuffleClients rng opts ctx replicas
      args clients cs _ n hdial hsplit ho,
      by rw [← hlen]; exact (hp.trans hperm).length_eq, hp.trans hperm⟩

/-- C19, on three candidates with the ordering value 2: the queue is empty and
the transport exhausted; and with `orderStable` and with `orderRandom`: the
queue holds three bindings. -/
theorem grpcTransportFactory_ordering_switch_witness :
    (∃ gt, (grpcTransportFactory demoSplit demoShuffle 0 ⟨2, 0⟩ demoContext demoReplicas
        ⟨0, 7⟩).result = .ok gt ∧
      gt.orderedClients = [] ∧ gt.IsExhausted.1 = true) ∧
    (∃ gt, (grpcTransportFactory demoSplit demoShuffle 0 ⟨orderStable, 0⟩ demoContext
        demoReplicas ⟨0, 7⟩).result = .ok gt ∧
      gt.orderedClients.length = demoReplicas.length ∧
      gt.orderedClients.Perm
        [⟨"a", 0, ⟨0⟩, ⟨1, 7⟩⟩, ⟨"b", 1, ⟨1⟩, ⟨2, 7⟩⟩, ⟨"c", 2, ⟨2⟩, ⟨3, 7⟩⟩]) ∧
    (∃ gt, (grpcTransportFactory demoSplit demoShuffle 0 ⟨orderRandom, 0⟩ demoContext
        demoReplicas ⟨0, 7⟩).result = .ok gt ∧
      gt.orderedClients.length = demoReplicas.length ∧
      gt.orderedClients.Perm
        [⟨"a", 0, ⟨0⟩, ⟨1, 7⟩⟩, ⟨"b", 1, ⟨1⟩, ⟨2, 7⟩⟩, ⟨"c", 2, ⟨2⟩, ⟨3, 7⟩⟩]) :=
  ⟨(grpcTransportFactory_ordering_switch demoSplit demoShuffle 0 ⟨2, 0⟩ demoContext
      demoReplicas ⟨0, 7⟩ _ _ _ rfl rfl).1 ⟨by decide, by decide⟩,
    (grpcTransportFactory_ordering_switch demoSplit demoShuffle 0 ⟨orderStable, 0⟩ demoContext
      demoReplicas ⟨0, 7⟩ _ _ _ rfl rfl).2.1 rfl
      (demoSplit_spec _ _ _ rfl).1,
    (grpcTransportFactory_ordering_switch demoSplit demoShuffle 0 ⟨orderRandom, 0⟩ demoContext
      demoReplicas ⟨0, 7⟩ _ _ _ rfl rfl).2.2 rfl
      (demoSplit_spec _ _ _ rfl).1 (demoSplit_spec _ _ _ rfl).2.1 demoShuffle_perm⟩

end Kv

namespace Sql

/-! ## Shared lemmas -/

theorem wrap64_of_isInt64 (x : Int) (h : isInt64 x) : wrap64 x = x := by
  unfold isInt64 MinInt64 MaxInt64 at h
  unfold wrap64
  omega

theorem evalClause_absent (p : planner) (name : String) :
    evalClause p name none = .absent := rfl

/-- The iteration for a present clause that type-checks and normalises, when
the planner is not in prepare-only mode, goes by the result of `Eval`. -/
theorem evalClause_eval (p : planner) (name : String) (e : Expr) (t t1 : TypedExpr)
    (h1 : p.TypeCheckAndRequire e name = .ok t) (h2 : p.NormalizeExpr t = .ok t1)
    (h3 : p.PrepareOnly = false) :
    evalClause p name (some e) =
      match p.Eval t1 with
      | .error err => .evalError err
      | .ok Datum.DNull => .null
      | .ok (Datum.DOther _) => .notInt
      | .ok (Datum.DInt val) => if val < 0 then .negative val else .value val := by
  simp only [evalClause, h1, h2, h3]
  rfl

theorem evalClause_value_nonneg (p : planner) (name : String) (src : Option Expr) (v : Int)
    (h : evalClause p name src = .value v) : 0 ≤ v := by
  unfold evalClause at h
  split at h
  · cases h
  · split at h
    · cases h
    · split at h
      · cases h
      · split at h
        · cases h
        · split at h
          · cases h
          · cases h
          · cases h
          · split at h
            · cases h
            · simp only [ClauseStep.value.injEq] at h
              omega

/-- The three ways `evalLimit` goes on a present limit clause. -/
theorem evalLimit_limit_fails (p : planner) (l : Limit) (err : Kv.GoError)
    (h : (evalClause p "LIMIT" l.Count).failure "LIMIT" = some err) :
    p.evalLimit (some l) = .returned ⟨0, 0, some err⟩ := by
  simp only [planner.evalLimit, evalLimitLoop]
  cases hc : evalClause p "LIMIT" l.Count <;> rw [hc] at h <;>
    simp_all [ClauseStep.failure]

theorem evalLimit_offset_fails (p : planner) (l : Limit) (err : Kv.GoError)
    (hc : (evalClause p "LIMIT" l.Count).passes = true)
    (h : (evalClause p "OFFSET" l.Offset).failure "OFFSET" = some err) :
    p.evalLimit (some l) = .returned ⟨0, 0, some err⟩ := by
  simp only [planner.evalLimit, evalLimitLoop]
  cases hc1 : evalClause p "LIMIT" l.Count <;> rw [hc1] at hc <;>
    cases ho : evalClause p "OFFSET" l.Offset <;> rw [ho] at h <;>
    simp_all [ClauseStep.failure, ClauseStep.passes]

theorem evalLimit_passes (p : planner) (l : Limit)
    (hc : (evalClause p "LIMIT" l.Count).passes = true)
    (ho : (evalClause p "OFFSET" l.Offset).passes = true) :
    p.evalLimit (some l) =
      .returned ⟨(evalClause p "LIMIT" l.Count).stored.getD MaxInt64,
        (evalClause p "OFFSET" l.Offset).stored.getD 0, none⟩ := by
  simp only [planner.evalLimit, evalLimitLoop]
  cases hc1 : evalClause p "LIMIT" l.Count <;> rw [hc1] at hc <;>
    cases ho1 : evalClause p "OFFSET" l.Offset <;> rw [ho1] at ho <;>
    simp_all [ClauseStep.stored, ClauseStep.passes]

theorem evalLimit_panics (p : planner) (l : Limit)
    (h : evalClause p "LIMIT" l.Count = .notInt ∨
      ((evalClause p "LIMIT" l.Count).passes = true ∧
        evalClause p "OFFSET" l.Offset = .notInt)) :
    p.evalLimit (some l) = .panicked "interface conversion" := by
  simp only [planner.evalLimit, evalLimitLoop]
  rcases h with h | ⟨hc, ho⟩
  · simp [h]
  · cases hc1 : evalClause p "LIMIT" l.Count <;> rw [hc1] at hc <;>
      simp_all [ClauseStep.passes]

/-- Every iteration fails, passes, or panics. -/
theorem clauseStep_cases (name : String) (s : ClauseStep) :
    (∃ err, s.failure name = some err) ∨ s.passes = true ∨ s = .notInt := by
  cases s <;> simp [ClauseStep.failure, ClauseStep.passes]

theorem clauseStep_passes_no_failure (name : String) (s : ClauseStep) (h : s.passes = true) :
    s.failure name = none := by
  cases s <;> simp_all [ClauseStep.failure, ClauseStep.passes]

/-- A call of `evalLimit` on a present limit clause that returns no error:
both iterations passed and the results are the values stored, or the
defaults. -/
theorem evalLimit_success (p : planner) (l : Limit) (r : LimitResult)
    (h : p.evalLimit (some l) = .returned r) (hr : r.err = none) :
    (evalClause p "LIMIT" l.Count).passes = true ∧
    (evalClause p "OFFSET" l.Offset).passes = true ∧
    r.count = (evalClause p "LIMIT" l.Count).stored.getD MaxInt64 ∧
    r.offset = (evalClause p "OFFSET" l.Offset).stored.getD 0 := by
  rcases clauseStep_cases "LIMIT" (evalClause p "LIMIT" l.Count) with ⟨err, hc⟩ | hc | hc
  · rw [evalLimit_limit_fails p l err hc] at h
    cases h
    cases hr
  · rcases clauseStep_cases "OFFSET" (evalClause p "OFFSET" l.Offset) with ⟨err, ho⟩ | ho | ho
    · rw [evalLimit_offset_fails p l err hc ho] at h
      cases h
      cases hr
    · rw [evalLimit_passes p l hc ho] at h
      cases h
      exact ⟨hc, ho, rfl, rfl⟩
    · rw [evalLimit_panics p l (Or.inr ⟨hc, ho⟩)] at h
      cases h
  · rw [evalLimit_panics p l (Or.inl hc)] at h
    cases h

/-- A clause that passes and evaluates to an integer stores that integer. -/
theorem evalClause_stores (p : planner) (name : String) (e : Expr) (t t1 : TypedExpr) (v : Int)
    (h1 : p.TypeCheckAndRequire e name = .ok t) (h2 : p.NormalizeExpr t = .ok t1)
    (h3 : p.PrepareOnly = false) (h4 : p.Eval t1 = .ok (Datum.DInt v))
    (hp : (evalClause p name (some e)).passes = true) :
    (evalClause p name (some e)).stored = some v := by
  rw [evalClause_eval p name e t t1 h1 h2 h3, h4] at hp ⊢
  by_cases hv : v < 0
  · simp [hv, ClauseStep.passes] at hp
  · simp [hv, ClauseStep.stored]

theorem evalClause_null (p : planner) (name : String) (e : Expr) (t t1 : TypedExpr)
    (h1 : p.TypeCheckAndRequire e name = .ok t) (h2 : p.NormalizeExpr t = .ok t1)
    (h3 : p.PrepareOnly = false) (h4 : p.Eval t1 = .ok Datum.DNull) :
    (evalClause p name (some e)).stored = none := by
  rw [evalClause_eval p name e t t1 h1 h2 h3, h4]
  rfl

/-- In prepare-only mode no iteration stores a value. -/
theorem evalClause_prepare (p : planner) (name : String) (src : Option Expr)
    (h : p.PrepareOnly = true) : (evalClause p name src).stored = none := by
  cases src with
  | none => rfl
  | some e =>
    cases h1 : p.TypeCheckAndRequire e name with
    | error err => simp [evalClause, h1, ClauseStep.stored]
    | ok t =>
      cases h2 : p.NormalizeExpr t with
      | error err => simp [evalClause, h1, h2, ClauseStep.stored]
      | ok t1 => simp [evalClause, h1, h2, h, ClauseStep.stored]

/-! ## evalLimit: defaults -/

/-- C16 (as stated, refuted): in prepare-only mode, on a limit clause whose
`Count` type-checks, normalises and evaluates to the integer 5 and whose
`Offset` is missing, `evalLimit` returns count `MaxInt64`, not 5: the clause
is not evaluated. -/
theorem evalLimit_prepare_only_keeps_default :
    demoPreparePlanner.evalLimit (some ⟨some 15, none⟩) = .returned ⟨MaxInt64, 0, none⟩ ∧
    demoPreparePlanner.TypeCheckAndRequire 15 "LIMIT" = .ok 15 ∧
    demoPreparePlanner.NormalizeExpr 15 = .ok 15 ∧
    demoPreparePlanner.Eval 15 = .ok (Datum.DInt 5) ∧
    MaxInt64 ≠ 5 :=
  ⟨rfl, rfl, rfl, rfl, by decide⟩

/-- C16 (amended): `evalLimit` on a nil limit clause returns count `MaxInt64`,
offset 0 and no error. On a present clause, whenever it returns no error: a
missing `Count`, or outside prepare-only mode one that evaluates to `NULL`,
leaves count at `MaxInt64`, and outside prepare-only mode a `Count` that
evaluates to an integer gives that integer; a missing `Offset`, or outside
prepare-only mode one that evaluates to `NULL`, leaves offset at 0, and
outside prepare-only mode an `Offset` that evaluates to an integer gives that
integer; in prepare-only mode count stays `MaxInt64` and offset stays 0. It
does return no error when both iterations pass. -/
theorem evalLimit_defaults (p : planner) :
    p.evalLimit none = .returned ⟨MaxInt64, 0, none⟩ ∧
    (∀ (l : Limit) (r : LimitResult), p.evalLimit (some l) = .returned r → r.err = none →
      (l.Count = none → r.count = MaxInt64) ∧
      (∀ e t t1, l.Count = some e → p.TypeCheckAndRequire e "LIMIT" = .ok t →
        p.NormalizeExpr t = .ok t1 → p.PrepareOnly = false →
        p.Eval t1 = .ok Datum.DNull → r.count = MaxInt64) ∧
      (∀ e t t1 v, l.Count = some e → p.TypeCheckAndRequire e "LIMIT" = .ok t →
        p.NormalizeExpr t = .ok t1 → p.PrepareOnly = false →
        p.Eval t1 = .ok (Datum.DInt v) → r.count = v) ∧
      (l.Offset = none → r.offset = 0) ∧
      (∀ e t t1, l.Offset = some e → p.TypeCheckAndRequire e "OFFSET" = .ok t →
        p.NormalizeExpr t = .ok t1 → p.PrepareOnly = false →
        p.Eval t1 = .ok Datum.DNull → r.offset = 0) ∧
      (∀ e t t1 v, l.Offset = some e → p.TypeCheckAndRequire e "OFFSET" = .ok t →
        p.NormalizeExpr t = .ok t1 → p.PrepareOnly = false →
        p.Eval t1 = .ok (Datum.DInt v) → r.offset = v) ∧
      (p.PrepareOnly = true → r.count = MaxInt64 ∧ r.offset = 0)) ∧
    (∀ l : Limit, (evalClause p "LIMIT" l.Count).passes = true →
      (evalClause p "OFFSET" l.Offset).passes = true →
      ∃ r, p.evalLimit (some l) = .returned r ∧ r.err = none) := by
  refine ⟨rfl, ?_, ?_⟩
  · intro l r h hr
    obtain ⟨hc, ho, hcount, hoffset⟩ := evalLimit_success p l r h hr
    refine ⟨?_, ?_, ?_, ?_, ?_, ?_, ?_⟩
    · intro hn
      rw [hcount, hn]
      rfl
    · intro e t t1 he h1 h2 h3 h4
      rw [hcount, he, evalClause_null p "LIMIT" e t t1 h1 h2 h3 h4]
      rfl
    · intro e t t1 v he h1 h2 h3 h4
      rw [he] at hc
      rw [hcount, he, evalClause_stores p "LIMIT" e t t1 v h1 h2 h3 h4 hc]
      rfl
    · intro hn
      rw [hoffset, hn]
      rfl
    · intro e t t1 he h1 h2 h3 h4
      rw [hoffset, he, evalClause_null p "OFFSET" e t t1 h1 h2 h3 h4]
      rfl
    · intro e t t1 v he h1 h2 h3 h4
      rw [he] at ho
      rw [hoffset, he, evalClause_stores p "OFFSET" e t t1 v h1 h2 h3 h4 ho]
      rfl
    · intro hp
      rw [hcount, hoffset, evalClause_prepare p "LIMIT" l.Count hp,
        evalClause_prepare p "OFFSET" l.Offset hp]
      exact ⟨rfl, rfl⟩
  · intro l hc ho
    exact ⟨_, evalLimit_passes p l hc ho, rfl⟩

/-- C16 (amended), outside prepare-only mode on a limit clause whose `Count`
evaluates to `NULL` and whose `Offset` evaluates to 3. -/
theorem evalLimit_defaults_witness :
    demoPlanner.evalLimit (some ⟨some 0, some 13⟩) = .returned ⟨MaxInt64, 3, none⟩ ∧
    (⟨MaxInt64, 3, none⟩ : LimitResult).count = MaxInt64 ∧
    (⟨MaxInt64, 3, none⟩ : LimitResult).offset = 3 :=
  ⟨rfl,
    ((evalLimit_defaults demoPlanner).2.1 ⟨some 0, some 13⟩ ⟨MaxInt64, 3, none⟩ rfl rfl).2.1
      0 0 0 rfl rfl rfl rfl rfl,
    ((evalLimit_defaults demoPlanner).2.1 ⟨some 0, some 13⟩ ⟨MaxInt64, 3, none⟩
      rfl rfl).2.2.2.2.2.1 13 13 13 3 rfl rfl rfl rfl rfl⟩

/-! ## The window test -/

/-- C17: for `int64` values `rowIndex`, `offset` and `count` that are not
negative, the difference `rowIndex - offset` is within the `int64` range, so
the subtraction does not wrap, and the test `rowIndex - offset >= count` holds
exactly when `rowIndex ≥ offset + count` over the integers. -/
theorem windowFull_no_overflow (rowIndex offset count : Int)
    (hr : 0 ≤ rowIndex ∧ rowIndex ≤ MaxInt64) (ho : 0 ≤ offset ∧ offset ≤ MaxInt64)
    (_hc : 0 ≤ count ∧ count ≤ MaxInt64) :
    isInt64 (rowIndex - offset) ∧ wrap64 (rowIndex - offset) = rowIndex - offset ∧
    (windowFull rowIndex offset count = true ↔ rowIndex ≥ offset + count) := by
  have hin : isInt64 (rowIndex - offset) := by
    unfold MaxInt64 at hr ho
    unfold isInt64 MinInt64 MaxInt64
    omega
  have hw := wrap64_of_isInt64 _ hin
  refine ⟨hin, hw, ?_⟩
  unfold windowFull
  rw [hw, decide_eq_true_iff]
  omega

/-- C17, at row index 0, offset `MaxInt64` and count `MaxInt64`. -/
theorem windowFull_no_overflow_witness :
    isInt64 (0 - MaxInt64) ∧ wrap64 (0 - MaxInt64) = 0 - MaxInt64 ∧
    (windowFull 0 MaxInt64 MaxInt64 = true ↔ (0 : Int) ≥ MaxInt64 + MaxInt64) :=
  windowFull_no_overflow 0 MaxInt64 MaxInt64 (by decide) (by decide) (by decide)

/-! ## evalLimit: failures -/

/-- The iteration for a clause fails exactly when the clause is present and
its type check fails, or its normalisation fails, or, outside prepare-only
mode, its evaluation fails or gives a negative integer. -/
theorem evalClause_failure_iff (p : planner) (name : String) (src : Option Expr) :
    ((evalClause p name src).failure name).isSome = true ↔
      ∃ e, src = some e ∧
        ((∃ err, p.TypeCheckAndRequire e name = .error err) ∨
          ∃ t, p.TypeCheckAndRequire e name = .ok t ∧
            ((∃ err, p.NormalizeExpr t = .error err) ∨
              ∃ t1, p.NormalizeExpr t = .ok t1 ∧ p.PrepareOnly = false ∧
                ((∃ err, p.Eval t1 = .error err) ∨
                  ∃ v, p.Eval t1 = .ok (Datum.DInt v) ∧ v < 0))) := by
  cases src with
  | none => simp [evalClause, ClauseStep.failure]
  | some e =>
    cases h1 : p.TypeCheckAndRequire e name with
    | error err => simp [evalClause, h1, ClauseStep.failure]
    | ok t =>
      cases h2 : p.NormalizeExpr t with
      | error err => simp [evalClause, h1, h2, ClauseStep.failure]
      | ok t1 =>
        cases h3 : p.PrepareOnly with
        | true => simp [evalClause, h1, h2, h3, ClauseStep.failure]
        | false =>
          cases h4 : p.Eval t1 with
          | error err => simp [evalClause, h1, h2, h3, h4, ClauseStep.failure]
          | ok d =>
            cases d with
            | DNull => simp [evalClause, h1, h2, h3, h4, ClauseStep.failure]
            | DOther tag => simp [evalClause, h1, h2, h3, h4, ClauseStep.failure]
            | DInt v =>
              by_cases hv : v < 0 <;> simp [evalClause, h1, h2, h3, h4, hv, ClauseStep.failure]

/-- C18 (as stated, refuted): in prepare-only mode, on a limit clause whose
`Count` type-checks, normalises and evaluates to the negative integer -5,
`evalLimit` returns no error: the clause is not evaluated. -/
theorem evalLimit_prepare_only_negative_passes :
    demoPreparePlanner.evalLimit (some ⟨some 5, some 3⟩) = .returned ⟨MaxInt64, 0, none⟩ ∧
    demoPreparePlanner.TypeCheckAndRequire 5 "LIMIT" = .ok 5 ∧
    demoPreparePlanner.NormalizeExpr 5 = .ok 5 ∧
    demoPreparePlanner.Eval 5 = .ok (Datum.DInt (-5)) ∧
    (-5 : Int) < 0 :=
  ⟨rfl, rfl, rfl, rfl, by decide⟩

/-- C18 (amended): on a present limit clause `evalLimit` returns an error
exactly when the iteration for `LIMIT` fails, or it passes and the iteration
for `OFFSET` fails, where an iteration fails exactly when the type check or
the normalisation of the clause returns an error or, outside prepare-only
mode, its evaluation returns an error or gives a negative integer; a negative
`LIMIT` gives the error
"negative value for LIMIT", also when `OFFSET` is negative too, and a negative
`OFFSET` after a passing `LIMIT` gives "negative value for OFFSET"; whenever
`evalLimit` returns an error it returns count 0 and offset 0, and whenever it
returns none both values are at least 0. -/
theorem evalLimit_fails_iff (p : planner) (l : Limit) :
    ((∃ r, p.evalLimit (some l) = .returned r ∧ r.err ≠ none) ↔
      (((evalClause p "LIMIT" l.Count).failure "LIMIT").isSome = true ∨
        ((evalClause p "LIMIT" l.Count).passes = true ∧
          ((evalClause p "OFFSET" l.Offset).failure "OFFSET").isSome = true))) ∧
    (∀ name src, ((evalClause p name src).failure name).isSome = true ↔
      ∃ e, src = some e ∧
        ((∃ err, p.TypeCheckAndRequire e name = .error err) ∨
          ∃ t, p.TypeCheckAndRequire e name = .ok t ∧
            ((∃ err, p.NormalizeExpr t = .error err) ∨
              ∃ t1, p.NormalizeExpr t = .ok t1 ∧ p.PrepareOnly = false ∧
                ((∃ err, p.Eval t1 = .error err) ∨
                  ∃ v, p.Eval t1 = .ok (Datum.DInt v) ∧ v < 0)))) ∧
    (∀ v, evalClause p "LIMIT" l.Count = .negative v →
      p.evalLimit (some l) = .returned ⟨0, 0, some ⟨"negative value for LIMIT"⟩⟩) ∧
    (∀ v, (evalClause p "LIMIT" l.Count).passes = true →
      evalClause p "OFFSET" l.Offset = .negative v →
      p.evalLimit (some l) = .returned ⟨0, 0, some ⟨"negative value for OFFSET"⟩⟩) ∧
    (∀ limit r, p.evalLimit limit = .returned r →
      (r.err ≠ none → r.count = 0 ∧ r.offset = 0) ∧
      (r.err = none → 0 ≤ r.count ∧ 0 ≤ r.offset)) := by
  refine ⟨⟨?_, ?_⟩, evalClause_failure_iff p, ?_, ?_, ?_⟩
  · rintro ⟨r, h, hr⟩
    rcases clauseStep_cases "LIMIT" (evalClause p "LIMIT" l.Count) with ⟨err, hc⟩ | hc | hc
    · left
      rw [hc]
      rfl
    · rcases clauseStep_cases "OFFSET" (evalClause p "OFFSET" l.Offset) with
        ⟨err, ho⟩ | ho | ho
      · right
        refine ⟨hc, ?_⟩
        rw [ho]
        rfl
      · rw [evalLimit_passes p l hc ho] at h
        cases h
        exact absurd rfl hr
      · rw [evalLimit_panics p l (Or.inr ⟨hc, ho⟩)] at h
        cases h
    · rw [evalLimit_panics p l (Or.inl hc)] at h
      cases h
  · rintro (hc | ⟨hc, ho⟩)
    · obtain ⟨err, herr⟩ := Option.isSome_iff_exists.mp hc
      exact ⟨_, evalLimit_limit_fails p l err herr, by simp⟩
    · obtain ⟨err, herr⟩ := Option.isSome_iff_exists.mp ho
      exact ⟨_, evalLimit_offset_fails p l err hc herr, by simp⟩
  · intro v hv
    exact evalLimit_limit_fails p l _ (by rw [hv]; rfl)
  · intro v hc hv
    exact evalLimit_offset_fails p l _ hc (by rw [hv]; rfl)
  · intro limit r h
    cases limit with
    | none =>
      have h0 : p.evalLimit none = .returned ⟨MaxInt64, 0, none⟩ := rfl
      rw [h0] at h
      cases h
      exact ⟨fun hne => absurd rfl hne, fun _ => ⟨by decide, by decide⟩⟩
    | some l1 =>
      rcases clauseStep_cases "LIMIT" (evalClause p "LIMIT" l1.Count) with
        ⟨err, hc⟩ | hc | hc
      · rw [evalLimit_limit_fails p l1 err hc] at h
        cases h
        exact ⟨fun _ => ⟨rfl, rfl⟩, fun hn => by cases hn⟩
      · rcases clauseStep_cases "OFFSET" (evalClause p "OFFSET" l1.Offset) with
          ⟨err, ho⟩ | ho | ho
        · rw [evalLimit_offset_fails p l1 err hc ho] at h
          cases h
          exact ⟨fun _ => ⟨rfl, rfl⟩, fun hn => by cases hn⟩
        · rw [evalLimit_passes p l1 hc ho] at h
          cases h
          refine ⟨fun hne => absurd rfl hne, fun _ => ⟨?_, ?_⟩⟩
          · cases hs : evalClause p "LIMIT" l1.Count <;>
              simp only [ClauseStep.stored, Option.getD] <;> try decide
            exact evalClause_value_nonneg p "LIMIT" l1.Count _ hs
          · cases hs : evalClause p "OFFSET" l1.Offset <;>
              simp only [ClauseStep.stored, Option.getD] <;> try decide
            exact evalClause_value_nonneg p "OFFSET" l1.Offset _ hs
        · rw [evalLimit_panics p l1 (Or.inr ⟨hc, ho⟩)] at h
          cases h
      · rw [evalLimit_panics p l1 (Or.inl hc)] at h
        cases h

/-- C18 (amended), outside prepare-only mode on a limit clause whose `Count`
evaluates to -5 and whose `Offset`
evaluates to -7: the error names `LIMIT`; and on one whose `Count` is missing
and whose `Offset` evaluates to -7: the error names `OFFSET`. -/
theorem evalLimit_fails_iff_witness :
    demoPlanner.evalLimit (some ⟨some 5, some 3⟩) =
      .returned ⟨0, 0, some ⟨"negative value for LIMIT"⟩⟩ ∧
    demoPlanner.evalLimit (some ⟨none, some 3⟩) =
      .returned ⟨0, 0, some ⟨"negative value for OFFSET"⟩⟩ :=
  ⟨(evalLimit_fails_iff demoPlanner ⟨some 5, some 3⟩).2.2.1 (-5) (by decide),
    (evalLimit_fails_iff demoPlanner ⟨none, some 3⟩).2.2.2.1 (-7) (by decide) (by decide)⟩

/-! ## planner.limit and limitNode.Next -/

/-- C15 (the code departs from the claim): with count 0 and offset 1 on a
child plan of three rows, the first `Next` of the limit node skips one row and
returns true on the row with values 11; only the second `Next` returns false.
One row is emitted although count is 0. -/
theorem limitNode_emits_row_with_count_zero :
    ∃ n0 n1, demoPlanner.limit 0 1 demoPlan = .limit n0 ∧
      n0.count = 0 ∧ n0.offset = 1 ∧ n0.rowIndex = 0 ∧
      n0.explain = explainMode.explainNone ∧
      n0.Next = (true, n1) ∧ n1.Values = some 11 ∧ n1.rowIndex = 2 ∧
      n1.Next = (false, n1) ∧
      n0.drain 4 = ([some 11], true, n1) :=
  ⟨_, _, rfl, rfl, rfl, rfl, rfl, rfl, rfl, rfl, rfl, rfl⟩

/-- C20 (the code departs from the claim): with count 1 and offset `MaxInt64`,
both non-negative `int64` values with count below `MaxInt64`, `planner.limit`
sets the soft hint `MinInt64`: the `int64` sum `offset+count` wraps around and
is not the integer sum. -/
theorem planner_limit_hint_wraps :
    ∃ n, demoPlanner.limit 1 MaxInt64 ⟨[], none, none⟩ = .limit n ∧
      n.count = 1 ∧ n.offset = MaxInt64 ∧ n.rowIndex = 0 ∧
      n.plan.limitHint = some (MinInt64, false) ∧
      MinInt64 ≠ MaxInt64 + 1 ∧ (0 : Int) ≤ 1 ∧ (1 : Int) < MaxInt64 ∧ 0 ≤ MaxInt64 :=
  ⟨_, rfl, rfl, rfl, rfl, rfl, by decide, by decide, by decide, by decide⟩

end Sql
